import Mathlib

/-! # Tagsistant: deduplication, directory listing and flush

A shallow embedding of `src/utils.c`, `src/fuse_operations/readdir.c` and
`src/fuse_operations/flush.c`.

The relational store behind `tagsistant_query` and the archive directory are
explicit state; every C function that talks to them becomes a function from
state to state.  Inodes and tag ids are natural numbers, rendered exactly by
the `%d` conversions of the statements.
-/

namespace Tagsistant

/-! ## Metadata store and archive -/

/-- One row of `objects(inode, objectname, checksum)`. -/
structure ObjectRow where
  inode : Nat
  objectname : String
  checksum : String
deriving DecidableEq, Repr

/-- One row of `tagging(inode, tag_id)`. -/
structure TaggingRow where
  inode : Nat
  tag_id : Nat
deriving DecidableEq, Repr

/-- What `lstat` reports about an archive entry, as far as `S_ISREG` and
`S_ISLNK` look at it. -/
inductive FileKind where
  | regular
  | symlink
  | directory
  | other
deriving DecidableEq, Repr

/-- One entry of the archive directory: its full path, its `lstat` kind and the
bytes that `open` followed by the `read` loop delivers (`none` when `open`
fails). -/
structure ArchiveFile where
  path : String
  kind : FileKind
  data : Option (List Nat)
deriving DecidableEq, Repr

/-- The state reached through a `dbi_conn` handle together with the archive
directory.  `queries` counts the statements sent through `tagsistant_query`. -/
structure Repository where
  objects : List ObjectRow
  tagging : List TaggingRow
  archive : List ArchiveFile
  queries : Nat
deriving DecidableEq, Repr

/-- Process-wide settings read by the code: `tagsistant.archive`, the macro
`TAGSISTANT_INODE_DELIMITER` and the digest computed by `GChecksum`
(`G_CHECKSUM_SHA1`), none of which is defined in the sources at hand. -/
structure Config where
  archive : String
  delimiter : String
  sha1 : List Nat → String

/-- Modelled from the spec: `tagsistant_query` is not part of the sources; every
call of it sends one statement, counted here. -/
def tagsistant_query (dbi : Repository) : Repository :=
  { dbi with queries := dbi.queries + 1 }

/-- Modelled from the spec: the rows answered to
`select inode from objects where checksum = "%s" order by inode limit 1`,
that is the smallest inode carrying the checksum, if any. -/
def select_inode_by_checksum (dbi : Repository) (hex : String) : List Nat :=
  ((dbi.objects.filter (fun o => o.checksum = hex)).map (fun o => o.inode)).min?.toList

/-- Modelled from the spec: the callback `tagsistant_return_integer`, called once
per answered row, stores the integer of the row into the caller's variable; the
variable keeps its value when no row is answered. -/
def tagsistant_return_integer (buffer : Nat) (rows : List Nat) : Nat :=
  rows.foldl (fun _ value => value) buffer

/-- Modelled from the spec: the callback `tagsistant_return_string`, called once
per answered row, stores the string of the row into the caller's variable, which
starts as `NULL`. -/
def tagsistant_return_string (rows : List String) : Option String :=
  rows.foldl (fun _ value => some value) none

/-- Modelled from the spec: `update tagging set inode = main_inode where inode = inode`
under `UNIQUE(inode, tag_id)`, row by row.  `done` holds the rows already
visited, the second list the rows still to visit.  A row of `inode` is
repointed unless another row already binds its tag to `main_inode`; such a row
is left as it is (spec 4.F, merge policy step 1). -/
def update_tagging_rows (main_inode inode : Nat) :
    List TaggingRow → List TaggingRow → List TaggingRow
  | done, [] => done
  | done, r :: rest =>
    if r.inode = inode ∧ (⟨main_inode, r.tag_id⟩ : TaggingRow) ∉ done ++ rest then
      update_tagging_rows main_inode inode (done ++ [⟨main_inode, r.tag_id⟩]) rest
    else
      update_tagging_rows main_inode inode (done ++ [r]) rest

/-- Modelled from the spec: the statement
`update tagging set inode = %d where inode = %d`. -/
def sql_update_tagging_inode (main_inode inode : Nat) (dbi : Repository) : Repository :=
  tagsistant_query { dbi with tagging := update_tagging_rows main_inode inode [] dbi.tagging }

/-- Modelled from the spec: the statement `delete from tagging where inode = %d`. -/
def sql_delete_tagging (inode : Nat) (dbi : Repository) : Repository :=
  tagsistant_query { dbi with tagging := dbi.tagging.filter (fun r => r.inode ≠ inode) }

/-- Modelled from the spec: the statement `delete from objects where inode = %d`. -/
def sql_delete_object (inode : Nat) (dbi : Repository) : Repository :=
  tagsistant_query { dbi with objects := dbi.objects.filter (fun o => o.inode ≠ inode) }

/-- Modelled from the spec: the rows answered to
`select objectname from objects where inode = %d`. -/
def select_objectname (dbi : Repository) (inode : Nat) : List String :=
  (dbi.objects.filter (fun o => o.inode = inode)).map (fun o => o.objectname)

/-- Modelled from the spec: the statement
`update objects set checksum = '%s' where inode = %d`. -/
def sql_update_checksum (hex : String) (inode : Nat) (dbi : Repository) : Repository :=
  tagsistant_query { dbi with
    objects := dbi.objects.map (fun o => if o.inode = inode then { o with checksum := hex } else o) }

/-- Modelled from the spec: the rows answered to
`select inode from objects where checksum = ""`, in table order. -/
def select_unhashed_inodes (dbi : Repository) : List Nat :=
  (dbi.objects.filter (fun o => o.checksum = "")).map (fun o => o.inode)

/-- The libc call `unlink(path)` on the archive. -/
def unlink (path : String) (dbi : Repository) : Repository :=
  { dbi with archive := dbi.archive.filter (fun f => f.path ≠ path) }

/-- The libc call `lstat(path, &buf)` on the archive: the entry, or `none` for `-1`. -/
def lstat (dbi : Repository) (path : String) : Option ArchiveFile :=
  dbi.archive.find? (fun f => f.path = path)

/-! ## `utils.c`: checksumming and deduplication -/

/-- The value of `main_inode` after the select of
`tagsistant_find_duplicated_objects` (utils.c 285-295). -/
def main_inode_of (dbi : Repository) (hex : String) : Nat :=
  tagsistant_return_integer 0 (select_inode_by_checksum dbi hex)

/-- `tagsistant_find_duplicated_objects` (utils.c 283-344). -/
def tagsistant_find_duplicated_objects (inode : Nat) (hex path : String)
    (dbi : Repository) : Repository :=
  let main_inode := main_inode_of dbi hex
  let dbi := tagsistant_query dbi
  if inode = main_inode then dbi
  else
    let dbi := sql_update_tagging_inode main_inode inode dbi
    let dbi := sql_delete_tagging inode dbi
    let dbi := sql_delete_object inode dbi
    unlink path dbi

/-- `tagsistant_calculate_object_checksum` (utils.c 351-423). -/
def tagsistant_calculate_object_checksum (cfg : Config) (inode : Nat)
    (dbi : Repository) : Repository :=
  let objectname := tagsistant_return_string (select_objectname dbi inode)
  let dbi := tagsistant_query dbi
  match objectname with
  | none => dbi
  | some objectname =>
    let path := cfg.archive ++ toString inode ++ cfg.delimiter ++ objectname
    match lstat dbi path with
    | none => dbi
    | some f =>
      if f.kind ≠ FileKind.regular ∧ f.kind ≠ FileKind.symlink then dbi
      else
        match f.data with
        | none => dbi
        | some bytes =>
          let hex := cfg.sha1 bytes
          let dbi := sql_update_checksum hex inode dbi
          tagsistant_find_duplicated_objects inode hex path dbi

/-- `tagsistant_deduplicator_callback` (utils.c 432-445). -/
def tagsistant_deduplicator_callback (cfg : Config) (dbi : Repository) (inode : Nat) :
    Repository :=
  tagsistant_calculate_object_checksum cfg inode dbi

/-- One turn of the `while (1)` loop of `tagsistant_deduplicator` (utils.c 452-476):
the callback runs once for every row answered to the select. -/
def tagsistant_deduplicator (cfg : Config) (dbi : Repository) : Repository :=
  (select_unhashed_inodes dbi).foldl (tagsistant_deduplicator_callback cfg) (tagsistant_query dbi)

/-- The tag ids bound to `inode` in a tagging table. -/
def tagset (tagging : List TaggingRow) (inode : Nat) : Finset Nat :=
  ((tagging.filter (fun r => r.inode = inode)).map (fun r => r.tag_id)).toFinset

/-- No two object rows with different inodes share a non-empty checksum. -/
def NoSharedChecksum (dbi : Repository) : Prop :=
  ∀ a ∈ dbi.objects, ∀ b ∈ dbi.objects, a.checksum = b.checksum → a.checksum ≠ "" → a.inode = b.inode

instance decidableNoSharedChecksum (dbi : Repository) : Decidable (NoSharedChecksum dbi) := by
  unfold NoSharedChecksum
  infer_instance

/-! ## Querytree -/

/-- A `ptree_and_node_t *`: `null` is `NULL`, `node tag next` a node with its
`tag` (possibly `NULL`) and its `next` pointer. -/
inductive ptree_and_node_t where
  | null
  | node (tag : Option String) (next : ptree_and_node_t)
deriving DecidableEq, Repr

/-- A non-`NULL` `ptree_or_node_t *`: `last and_set` has `next == NULL`.  The
code dereferences `qtree->tree` without a test, so the head is never `NULL`. -/
inductive ptree_or_node_t where
  | last (and_set : ptree_and_node_t)
  | cons (and_set : ptree_and_node_t) (next : ptree_or_node_t)
deriving DecidableEq, Repr

/-- Modelled from the spec: `tagsistant_querytree` is declared in `tagsistant.h`,
which is not among the sources; these are the role flags and resolved fields the
spec lists for it (section 3), each `QTREE_IS_...` macro reading one flag. -/
structure tagsistant_querytree where
  malformed : Bool
  points_to_object : Bool
  root : Bool
  archive : Bool
  tags : Bool
  relations : Bool
  stats : Bool
  taggable : Bool
  complete : Bool
  tree : ptree_or_node_t
  inode : Nat
  object_path : Option String
  full_archive_path : String
  first_tag : Option String
  relation : Option String
  second_tag : Option String
deriving DecidableEq, Repr

/-- Host error numbers of `errno.h`. -/
def ENOENT : Int := 2

/-- Host error number of `errno.h`. -/
def EIO : Int := 5

/-- Host error number of `errno.h`. -/
def EBADF : Int := 9

/-! ## `readdir.c` -/

/-- The libfuse callback `fuse_fill_dir_t`: its return value, given the names
handed to it so far and the name handed now. -/
abbrev fuse_fill_dir_t := List String → String → Int

/-- One call `filler(buf, name, ...)`: the name joins the names handed over, the
result is the filler's. -/
def call_filler (filler : fuse_fill_dir_t) (buf : List String) (name : String) :
    List String × Int :=
  (buf ++ [name], filler buf name)

/-- The loop `while (NULL != ptx->next) ptx = ptx->next;` followed by
`ptx->and_set` (readdir.c 48-51): the AND-set of the last OR section. -/
def last_and_set : ptree_or_node_t → ptree_and_node_t
  | .last and_set => and_set
  | .cons _ next => last_and_set next

/-- The loop over `and_t` (readdir.c 52-57): whether some node of the AND-set
has `g_strcmp0(and_t->tag, dir) == 0`. -/
def and_set_lists : ptree_and_node_t → String → Bool
  | .null, _ => false
  | .node tag next, dir => if tag = some dir then true else and_set_lists next dir

/-- `tagsistant_add_entry_to_dir` (readdir.c 39-60); `dir` is the first column
of the row, `none` for `NULL`. -/
def tagsistant_add_entry_to_dir (filler : fuse_fill_dir_t) (qtree : tagsistant_querytree)
    (buf : List String) (dir : Option String) : List String × Int :=
  match dir with
  | none => (buf, 0)
  | some dir =>
    if dir.length = 0 then (buf, 0)
    else if and_set_lists (last_and_set qtree.tree) dir then (buf, 0)
    else call_filler filler buf dir

/-- Modelled from the spec: `tagsistant_query` with a callback on a `SELECT`
invokes the callback once per answered row (spec 4.A). -/
def for_each_row (callback : List String → Option String → List String × Int) :
    List String → List (Option String) → List String
  | buf, [] => buf
  | buf, row :: rows => for_each_row callback (callback buf row).1 rows

/-- A non-`NULL` `file_handle_t *`: `last name` has `next == NULL`. -/
inductive file_handle_t where
  | last (name : Option String)
  | cons (name : Option String) (next : file_handle_t)
deriving DecidableEq, Repr

/-- The field `fh->name`. -/
def file_handle_t.name : file_handle_t → Option String
  | .last name => name
  | .cons name _ => name

/-- What `tagsistant_readdir` reads from outside: directories through `opendir`
and `readdir` (entry names, or the `errno` of a failed `opendir`), the alias
map, the rows answered to its three selects, `tagsistant_build_filetree` and
`tagsistant.archive`. -/
structure ReaddirEnv where
  opendir : String → Except Int (List String)
  tagsistant_get_alias : String → Option String
  tagnames : List (Option String)
  related_tags : String → String → List (Option String)
  relations_of : String → List (Option String)
  tagsistant_build_filetree : ptree_or_node_t → String → Option file_handle_t
  archive : String

/-- What a call of `tagsistant_readdir` leaves behind: its return value and the
names handed to the filler, in call order. -/
structure ReaddirResult where
  ret : Int
  handed : List String
deriving DecidableEq, Repr

/-- The loop `while ((de = readdir(dp)) != NULL)` (readdir.c 112-119, 144-151). -/
def fill_dirents (filler : fuse_fill_dir_t) : List String → List String → List String
  | buf, [] => buf
  | buf, d_name :: rest =>
    if (call_filler filler buf d_name).2 ≠ 0 then (call_filler filler buf d_name).1
    else fill_dirents filler (call_filler filler buf d_name).1 rest

/-- The `do ... while` loop over the filetree (readdir.c 170-177). -/
def fill_filetree (filler : fuse_fill_dir_t) : List String → file_handle_t → List String
  | buf, .last name =>
    match name with
    | none => buf
    | some name => if name.length ≠ 0 then (call_filler filler buf name).1 else buf
  | buf, .cons name next =>
    match name with
    | none => if next.name = none then buf else fill_filetree filler buf next
    | some name =>
      if name.length ≠ 0 then
        if (call_filler filler buf name).2 ≠ 0 then (call_filler filler buf name).1
        else if next.name = none then (call_filler filler buf name).1
        else fill_filetree filler (call_filler filler buf name).1 next
      else if next.name = none then buf
      else fill_filetree filler buf next

/-- The label `READDIR_EXIT` (readdir.c 251-259). -/
def READDIR_EXIT (res tagsistant_errno : Int) (buf : List String) : ReaddirResult :=
  { ret := if res = -1 then -tagsistant_errno else 0, handed := buf }

/-- `tagsistant_readdir` (readdir.c 73-260) on the querytree built from `path`.
`none` stands for the call `readdir(NULL)` reached when neither the archive path
nor an alias opens.  `g_new0` ends the process rather than return `NULL`, so the
two `ufs == NULL` exits are never taken. -/
def tagsistant_readdir (env : ReaddirEnv) (filler : fuse_fill_dir_t) (path : String)
    (qtree : tagsistant_querytree) : Option ReaddirResult :=
  if qtree.malformed then
    some (READDIR_EXIT (-1) ENOENT [])
  else if qtree.points_to_object then
    match env.opendir qtree.full_archive_path with
    | .ok entries => some (READDIR_EXIT 0 0 (fill_dirents filler [] entries))
    | .error _ =>
      match env.tagsistant_get_alias path with
      | none => none
      | some readdir_path =>
        match env.opendir readdir_path with
        | .ok entries => some (READDIR_EXIT 0 0 (fill_dirents filler [] entries))
        | .error errno => some (READDIR_EXIT 0 errno [])
  else if qtree.root then
    let buf := (call_filler filler [] ".").1
    let buf := (call_filler filler buf "..").1
    let buf := (call_filler filler buf "archive").1
    let buf := (call_filler filler buf "relations").1
    let buf := (call_filler filler buf "stats").1
    let buf := (call_filler filler buf "tags").1
    some (READDIR_EXIT 0 0 buf)
  else if qtree.archive then
    match env.opendir env.archive with
    | .error errno => some (READDIR_EXIT 0 errno [])
    | .ok entries => some (READDIR_EXIT 0 0 (fill_dirents filler [] entries))
  else if qtree.tags then
    let buf := (call_filler filler [] ".").1
    let buf := (call_filler filler buf "..").1
    if qtree.complete then
      match env.tagsistant_build_filetree qtree.tree path with
      | none => some (READDIR_EXIT 0 EBADF buf)
      | some fh => some (READDIR_EXIT 0 0 (fill_filetree filler buf fh))
    else
      let buf :=
        if path ≠ "/tags" then (call_filler filler (call_filler filler buf "+").1 "=").1
        else buf
      some (READDIR_EXIT 0 0
        (for_each_row (tagsistant_add_entry_to_dir filler qtree) buf env.tagnames))
  else if qtree.relations then
    let buf := (call_filler filler [] ".").1
    let buf := (call_filler filler buf "..").1
    if qtree.second_tag.isSome then
      some (READDIR_EXIT 0 0 buf)
    else
      match qtree.relation, qtree.first_tag with
      | some relation, first_tag =>
        some (READDIR_EXIT 0 0 (for_each_row (tagsistant_add_entry_to_dir filler qtree) buf
          (env.related_tags (first_tag.getD "(null)") relation)))
      | none, some first_tag =>
        some (READDIR_EXIT 0 0 (for_each_row (tagsistant_add_entry_to_dir filler qtree) buf
          (env.relations_of first_tag)))
      | none, none =>
        some (READDIR_EXIT 0 0
          (for_each_row (tagsistant_add_entry_to_dir filler qtree) buf env.tagnames))
  else if qtree.stats then
    let buf := (call_filler filler [] ".").1
    some (READDIR_EXIT 0 0 (call_filler filler buf "..").1)
  else
    some (READDIR_EXIT 0 0 [])

/-! ## `flush.c` -/

/-- Modelled from the spec: the rows answered to
`select inode from objects where inode = %d and checksum = ""`. -/
def select_inode_if_unhashed (dbi : Repository) (inode : Nat) : List Nat :=
  (dbi.objects.filter (fun o => o.inode = inode ∧ o.checksum = "")).map (fun o => o.inode)

/-- Modelled from the spec: `tagsistant_querytree_deduplicate` is not among the
sources; on flush the spec has it "invoke deduplication on this object", the
single-object entry that hashes the object, updates its checksum and merges it
(spec 4.E, 4.F). -/
def tagsistant_querytree_deduplicate (cfg : Config) (qtree : tagsistant_querytree)
    (dbi : Repository) : Repository :=
  tagsistant_calculate_object_checksum cfg qtree.inode dbi

/-- Modelled from the spec: `tagsistant_querytree_destroy` closes the request's
transaction; a rollback drops the metadata changes made since `start`, a commit
keeps them (spec 5, ordering).  Archive changes and the statements sent stay. -/
def tagsistant_querytree_destroy (commit : Bool) (start dbi : Repository) : Repository :=
  if commit then dbi else { dbi with objects := start.objects, tagging := start.tagging }

/-- `tagsistant_flush` (flush.c 29-70) on the querytree built from the path;
`tagsistant_process` is the autotagging plugin stack.  The macro
`TAGSISTANT_ABORT_OPERATION(e)` sets `res = -1`, `tagsistant_errno = e` and jumps
to `TAGSISTANT_EXIT_OPERATION`. -/
def tagsistant_flush (cfg : Config)
    (tagsistant_process : tagsistant_querytree → Repository → Repository)
    (qtree : tagsistant_querytree) (dbi : Repository) : Int × Repository :=
  if qtree.malformed then
    (-ENOENT, tagsistant_querytree_destroy false dbi dbi)
  else if qtree.taggable then
    let modified := tagsistant_return_integer 0 (select_inode_if_unhashed dbi qtree.inode)
    let dbi1 := tagsistant_query dbi
    if modified ≠ 0 then
      (0, tagsistant_querytree_destroy true dbi
        (tagsistant_querytree_deduplicate cfg qtree (tagsistant_process qtree dbi1)))
    else
      (0, tagsistant_querytree_destroy true dbi dbi1)
  else
    (0, tagsistant_querytree_destroy true dbi dbi)

/-! ## `utils.c`: the inode prefix of an object path -/

/-- The number of leading characters of the subject that match `[0-9]`. -/
def leading_digits (subject : List Char) : Nat :=
  (subject.takeWhile Char.isDigit).length

/-- Backtracking of the greedy group `([0-9]+)`: the longest group of at most
`k` and at least one character after which the delimiter follows. -/
def backtrack_group (delim subject : List Char) : Nat → Option Nat
  | 0 => none
  | k + 1 =>
    if delim.isPrefixOf (subject.drop (k + 1)) then some (k + 1)
    else backtrack_group delim subject k

/-- `g_regex_match` of the expression compiled in `tagsistant_utils_init`
(utils.c 484), `"^([0-9]+)" TAGSISTANT_INODE_DELIMITER`: the length of group 1
when the subject matches.  The delimiter is read as literal text; `^` anchors
the match at offset 0. -/
def g_regex_match (delim subject : List Char) : Option Nat :=
  backtrack_group delim subject (leading_digits subject)

/-- The number written by a run of decimal digits. -/
def decimal_value (text : List Char) : Nat :=
  text.foldl (fun acc c => 10 * acc + (c.toNat - 48)) 0

/-- The libc call `strtoul(text, &end, 10)` on a run of decimal digits, for an
`unsigned long` of `ulong_bits` bits: the value, or `ULONG_MAX` when it does not
fit. -/
def strtoul (ulong_bits : Nat) (text : List Char) : Nat :=
  if decimal_value text < 2 ^ ulong_bits then decimal_value text else 2 ^ ulong_bits - 1

/-- `tagsistant_inode_extract_from_path` (utils.c 80-117): the returned inode
and the querytree afterwards.  `tagsistant_inode` is an unsigned type of
`inode_bits` bits and `delim` is `TAGSISTANT_INODE_DELIMITER`, both declared
outside the sources at hand.  Since `^` matches at offset 0 only,
`g_regex_replace` removes the one match at the start. -/
def tagsistant_inode_extract_from_path (inode_bits ulong_bits : Nat) (delim : String)
    (qtree : Option tagsistant_querytree) : Nat × Option tagsistant_querytree :=
  match qtree with
  | none => (0, none)
  | some qtree =>
    match qtree.object_path with
    | none => (0, some qtree)
    | some object_path =>
      match g_regex_match delim.data object_path.data with
      | none => (0, some qtree)
      | some k =>
        (strtoul ulong_bits (object_path.data.take k) % 2 ^ inode_bits,
         some { qtree with
           object_path := some (String.mk (object_path.data.drop (k + delim.data.length))) })

/-! ## `utils.c`: object creation -/

/-- One row of `tags(tag_id, tagname)`. -/
structure TagRow where
  tag_id : Nat
  tagname : String
deriving DecidableEq, Repr

/-- What the store decides when a row is inserted: the inode it gives to a new
object row and the tag id it gives to a new tag row.  The code provides for an
object recorded as inode 0 (utils.c 184-188), so no value is excluded. -/
structure StoreEnv where
  next_inode : List ObjectRow → Nat
  next_tag_id : List TagRow → Nat

/-- The metadata reached through `qtree->dbi` when an object is tagged: the
`tags` table beside the repository. -/
structure Metadata where
  tags : List TagRow
  dbi : Repository
deriving DecidableEq, Repr

/-- Modelled from the spec: the rows answered to
`select inode from objects where objectname = "%s" limit 1`, the first row of
that name in table order, if any. -/
def select_inode_by_objectname (dbi : Repository) (objectname : String) : List Nat :=
  ((dbi.objects.filter (fun o => o.objectname = objectname)).map (fun o => o.inode)).take 1

/-- Modelled from the spec: the statement
`insert into objects (objectname) values ("%s")`; the store gives the inode, the
checksum defaults to the empty string (spec 6). -/
def sql_insert_object (store : StoreEnv) (objectname : String) (dbi : Repository) :
    Repository :=
  tagsistant_query { dbi with
    objects := dbi.objects ++ [⟨store.next_inode dbi.objects, objectname, ""⟩] }

/-- Modelled from the spec: `tagsistant_last_insert_id` (spec 4.A), the inode of
the object row inserted last, 0 when there is none. -/
def tagsistant_last_insert_id (dbi : Repository) : Nat :=
  match dbi.objects.getLast? with
  | some o => o.inode
  | none => 0

/-- Modelled from the spec: `tagsistant_querytree_set_inode` patches the
querytree with the inode and the archive path that starts with it (spec 4.E step
4, 4.D). -/
def tagsistant_querytree_set_inode (cfg : Config) (qtree : tagsistant_querytree)
    (inode : Nat) : tagsistant_querytree :=
  { qtree with
    inode := inode
    full_archive_path :=
      cfg.archive ++ toString inode ++ cfg.delimiter ++ qtree.object_path.getD "(null)" }

/-- Modelled from the spec: `tagsistant_sql_tag_object` binds `(inode, tag_id)`
for a named tag, creating the tag if needed (spec 4.E step 5); `tagname` stays
unique in `tags` and `(inode, tag_id)` in `tagging`.  A `NULL` tag names
nothing.  Its statements are not counted in `queries`. -/
def tagsistant_sql_tag_object (store : StoreEnv) (inode : Nat) (tag : Option String)
    (m : Metadata) : Metadata :=
  match tag with
  | none => m
  | some tagname =>
    let tags :=
      if m.tags.any (fun r => r.tagname = tagname) then m.tags
      else m.tags ++ [⟨store.next_tag_id m.tags, tagname⟩]
    match tags.find? (fun r => r.tagname = tagname) with
    | none => { m with tags := tags }
    | some row =>
      { tags := tags,
        dbi := { m.dbi with
          tagging :=
            if (⟨inode, row.tag_id⟩ : TaggingRow) ∈ m.dbi.tagging then m.dbi.tagging
            else m.dbi.tagging ++ [⟨inode, row.tag_id⟩] } }

/-- The inner loop of `tagsistant_querytree_traverse`: the function is applied
to the tag of every node of an AND-set, in order. -/
def traverse_and_set (f : Option String → Metadata → Metadata) :
    ptree_and_node_t → Metadata → Metadata
  | .null, m => m
  | .node tag next, m => traverse_and_set f next (f tag m)

/-- Modelled from the spec: `tagsistant_querytree_traverse` walks every AND-set
of the querytree, OR section by OR section (spec 4.E step 5). -/
def tagsistant_querytree_traverse (f : Option String → Metadata → Metadata) :
    ptree_or_node_t → Metadata → Metadata
  | .last and_set, m => traverse_and_set f and_set m
  | .cons and_set next, m => tagsistant_querytree_traverse f next (traverse_and_set f and_set m)

/-- Whether some AND-node of some OR section of the tree carries the tag. -/
def tree_lists : ptree_or_node_t → String → Bool
  | .last and_set, tag => and_set_lists and_set tag
  | .cons and_set next, tag => and_set_lists and_set tag || tree_lists next tag

/-- Step 1 of `tagsistant_inner_create_and_tag_object` (utils.c 161-182): the
value of `inode` before the test `if (!inode)` and the repository then.  The
objectname is `qtree->object_path` as `%s` prints it. -/
def create_or_find_object (store : StoreEnv) (qtree : tagsistant_querytree)
    (force_create : Bool) (dbi : Repository) : Nat × Repository :=
  let objectname := qtree.object_path.getD "(null)"
  let found : Nat × Repository :=
    if force_create then (0, dbi)
    else (tagsistant_return_integer 0 (select_inode_by_objectname dbi objectname),
          tagsistant_query dbi)
  if force_create = true ∨ found.1 = 0 then
    (tagsistant_last_insert_id (sql_insert_object store objectname found.2),
     sql_insert_object store objectname found.2)
  else found

/-- What a call of `tagsistant_inner_create_and_tag_object` leaves behind: its
return value, `*tagsistant_errno`, the querytree and the metadata. -/
structure CreateResult where
  ret : Int
  tagsistant_errno : Int
  qtree : tagsistant_querytree
  tags : List TagRow
  dbi : Repository
deriving DecidableEq, Repr

/-- The conversion of an unsigned `tagsistant_inode` to the `int` that the
function returns, for an `int` of `int_bits` bits: the value is reduced modulo
`2 ^ int_bits` and the upper half of the range comes back negative. -/
def int_of_inode (int_bits inode : Nat) : Int :=
  if inode % 2 ^ int_bits < 2 ^ (int_bits - 1) then ((inode % 2 ^ int_bits : Nat) : Int)
  else ((inode % 2 ^ int_bits : Nat) : Int) - ((2 ^ int_bits : Nat) : Int)

/-- `tagsistant_inner_create_and_tag_object` (utils.c 159-209) for an `int` of
`int_bits` bits.  The argument `tagsistant_errno` is the value of
`*tagsistant_errno` at the call; `return(inode)` hands the inode back through
the `int` result type. -/
def tagsistant_inner_create_and_tag_object (cfg : Config) (store : StoreEnv) (int_bits : Nat)
    (qtree : tagsistant_querytree) (tagsistant_errno : Int) (force_create : Bool)
    (tags : List TagRow) (dbi : Repository) : CreateResult :=
  let inode := (create_or_find_object store qtree force_create dbi).1
  let dbi := (create_or_find_object store qtree force_create dbi).2
  if inode = 0 then
    { ret := -1, tagsistant_errno := EIO, qtree := qtree, tags := tags, dbi := dbi }
  else
    let m := tagsistant_querytree_traverse (tagsistant_sql_tag_object store inode) qtree.tree
      { tags := tags, dbi := dbi }
    { ret := int_of_inode int_bits inode, tagsistant_errno := tagsistant_errno,
      qtree := tagsistant_querytree_set_inode cfg qtree inode, tags := m.tags, dbi := m.dbi }

/-! ## Listing contents and example inputs -/

/-- The tags of the nodes of an AND-set, first node first, `none` for a `NULL`
tag. -/
def and_set_tags : ptree_and_node_t → List (Option String)
  | .null => []
  | .node tag next => tag :: and_set_tags next

/-- The OR sections of a querytree, first section first, each as the tags of
its AND-set. -/
def or_sections : ptree_or_node_t → List (List (Option String))
  | .last and_set => [and_set_tags and_set]
  | .cons and_set next => and_set_tags and_set :: or_sections next

/-- The names that the rows of a tag select contribute to a listing of `qtree`:
the non-empty ones not named by an AND-node of the last OR section. -/
def tag_entries (qtree : tagsistant_querytree) (rows : List (Option String)) : List String :=
  rows.filterMap (fun dir =>
    match dir with
    | none => none
    | some dir =>
      if dir.length = 0 then none
      else if and_set_lists (last_and_set qtree.tree) dir then none
      else some dir)

/-- Example surroundings of a listing: no directory opens, no alias is known,
the tag table answers `tagnames`, no relation is stored and the filetree build
yields `NULL`. -/
def listing_env (tagnames : List (Option String)) : ReaddirEnv :=
  { opendir := fun _ => .error ENOENT,
    tagsistant_get_alias := fun _ => none,
    tagnames := tagnames,
    related_tags := fun _ _ => [],
    relations_of := fun _ => [],
    tagsistant_build_filetree := fun _ _ => none,
    archive := "/repo/archive/" }

/-- Example querytree of a tags path with the given tree and `complete` flag. -/
def tags_qtree (tree : ptree_or_node_t) (complete : Bool) : tagsistant_querytree :=
  { malformed := false, points_to_object := false, root := false, archive := false,
    tags := true, relations := false, stats := false, taggable := false,
    complete := complete, tree := tree, inode := 0, object_path := none,
    full_archive_path := "", first_tag := none, relation := none, second_tag := none }

/-- Example querytree of the path `/`. -/
def root_qtree : tagsistant_querytree :=
  { tags_qtree (.last .null) false with root := true, tags := false }

/-- Example querytree flagged malformed, with other role flags set as well. -/
def malformed_qtree : tagsistant_querytree :=
  { tags_qtree (.last .null) true with
    malformed := true
    root := true
    taggable := true
    points_to_object := true
    inode := 3 }

/-- A filler that always accepts the entry. -/
def accepting_filler : fuse_fill_dir_t := fun _ _ => 0

/-- Failing input of C2, settings: the digest is any function `sha1`. -/
def rewritten_cfg (sha1 : List Nat → String) : Config :=
  { archive := "/repo/archive/", delimiter := "___", sha1 := sha1 }

/-- Failing input of C2, store and archive: object 5 is hashed, the older object
3 has been rewritten with the same five bytes and is unhashed. -/
def rewritten_repository (sha1 : List Nat → String) : Repository :=
  { objects := [⟨3, "x", ""⟩, ⟨5, "y", sha1 [72, 69, 76, 76, 79]⟩],
    tagging := [⟨3, 1⟩, ⟨5, 2⟩],
    archive := [⟨"/repo/archive/3___x", FileKind.regular, some [72, 69, 76, 76, 79]⟩,
                ⟨"/repo/archive/5___y", FileKind.regular, some [72, 69, 76, 76, 79]⟩],
    queries := 0 }

/-- The tag is bound to the inode: some row of `tags` carries the tagname and
`tagging` holds the inode with the tag id of that row. -/
def tag_bound (inode : Nat) (tagname : String) (m : Metadata) : Prop :=
  ∃ row ∈ m.tags, row.tagname = tagname ∧ (⟨inode, row.tag_id⟩ : TaggingRow) ∈ m.dbi.tagging

instance decidableTagBound (inode : Nat) (tagname : String) (m : Metadata) :
    Decidable (tag_bound inode tagname m) := by
  unfold tag_bound
  infer_instance

/-- The second metadata keeps every tag row and every tagging row of the first
and has the same objects, archive and statement count. -/
def metadata_grows (m m' : Metadata) : Prop :=
  (∀ r ∈ m.tags, r ∈ m'.tags) ∧ (∀ r ∈ m.dbi.tagging, r ∈ m'.dbi.tagging) ∧
    m'.dbi.objects = m.dbi.objects ∧ m'.dbi.archive = m.dbi.archive ∧
    m'.dbi.queries = m.dbi.queries

instance decidableMetadataGrows (m m' : Metadata) : Decidable (metadata_grows m m') := by
  unfold metadata_grows
  infer_instance

/-- Example store: a new row gets the number after the largest one in use. -/
def autoincrement_store : StoreEnv :=
  { next_inode := fun objects => (objects.map (fun o => o.inode)).foldl max 0 + 1,
    next_tag_id := fun tags => (tags.map (fun r => r.tag_id)).foldl max 0 + 1 }

/-- Example store that records every new object as inode 0. -/
def zero_store : StoreEnv :=
  { next_inode := fun _ => 0,
    next_tag_id := fun tags => (tags.map (fun r => r.tag_id)).foldl max 0 + 1 }

/-- Example store that gives every new object the inode 4294967295, the largest
value of a 32-bit unsigned type. -/
def large_store : StoreEnv :=
  { next_inode := fun _ => 4294967295,
    next_tag_id := fun tags => (tags.map (fun r => r.tag_id)).foldl max 0 + 1 }

/-- Example settings with a digest that prints the byte sum. -/
def example_cfg : Config :=
  { archive := "/repo/archive/", delimiter := "___",
    sha1 := fun bytes => "sum" ++ toString bytes.sum }

/-- Example querytree of a taggable path `/tags/photo/=/<leaf>` for the given
inode and object path. -/
def photo_qtree (inode : Nat) (object_path : String) : tagsistant_querytree :=
  { tags_qtree (.last (.node (some "photo") .null)) true with
    taggable := true
    points_to_object := true
    inode := inode
    object_path := some object_path }

/-! # Theorems -/

/-! ## Lemmas on the store -/

theorem mem_tagset (tagging : List TaggingRow) (inode t : Nat) :
    t ∈ tagset tagging inode ↔ (⟨inode, t⟩ : TaggingRow) ∈ tagging := by
  unfold tagset
  simp only [List.mem_toFinset, List.mem_map, List.mem_filter, decide_eq_true_eq]
  constructor
  · rintro ⟨r, ⟨hr, hi⟩, ht⟩
    cases r
    simp only at hi ht
    subst hi ht
    exact hr
  · intro h
    exact ⟨⟨inode, t⟩, ⟨h, rfl⟩, rfl⟩

theorem update_tagging_rows_main (main_inode inode : Nat) (hne : main_inode ≠ inode) (t : Nat) :
    ∀ (todo done : List TaggingRow),
      (⟨main_inode, t⟩ : TaggingRow) ∈ update_tagging_rows main_inode inode done todo ↔
        (⟨main_inode, t⟩ : TaggingRow) ∈ done ∨ (⟨main_inode, t⟩ : TaggingRow) ∈ todo ∨
          (⟨inode, t⟩ : TaggingRow) ∈ todo := by
  intro todo
  induction todo with
  | nil => intro done; simp [update_tagging_rows]
  | cons r rest ih =>
    intro done
    obtain ⟨ri, rt⟩ := r
    unfold update_tagging_rows
    split
    · rename_i h
      obtain ⟨h1, h2⟩ := h
      simp only at h1
      subst h1
      rw [ih]
      simp only [List.mem_append, List.mem_cons, TaggingRow.mk.injEq,
        true_and, List.not_mem_nil, or_false]
      constructor
      · rintro (⟨h | h⟩ | h | h)
        · exact Or.inl h
        · exact Or.inr (Or.inr (Or.inl h))
        · exact Or.inr (Or.inl (Or.inr h))
        · exact Or.inr (Or.inr (Or.inr h))
      · rintro (h | ⟨⟨h, -⟩ | h⟩ | ⟨h | h⟩)
        · exact Or.inl (Or.inl h)
        · exact absurd h hne
        · exact Or.inr (Or.inl h)
        · exact Or.inl (Or.inr h)
        · exact Or.inr (Or.inr h)
    · rename_i h
      rw [ih]
      simp only [List.mem_append, List.mem_cons, TaggingRow.mk.injEq, List.not_mem_nil,
        or_false]
      simp only [not_and_or, not_not, List.mem_append] at h
      constructor
      · rintro (⟨h' | h'⟩ | h' | h')
        · exact Or.inl h'
        · exact Or.inr (Or.inl (Or.inl h'))
        · exact Or.inr (Or.inl (Or.inr h'))
        · exact Or.inr (Or.inr (Or.inr h'))
      · rintro (h' | ⟨h' | h'⟩ | ⟨⟨h1, h2⟩ | h'⟩)
        · exact Or.inl (Or.inl h')
        · exact Or.inl (Or.inr h')
        · exact Or.inr (Or.inl h')
        · subst h1 h2
          rcases h with h | h | h
          · exact absurd rfl h
          · exact Or.inl (Or.inl h)
          · exact Or.inr (Or.inl h)
        · exact Or.inr (Or.inr h')

theorem find_duplicated_objects_merge (inode : Nat) (hex path : String) (dbi : Repository)
    (h : main_inode_of dbi hex ≠ inode) :
    tagsistant_find_duplicated_objects inode hex path dbi =
      { objects := dbi.objects.filter (fun o => o.inode ≠ inode),
        tagging := (update_tagging_rows (main_inode_of dbi hex) inode [] dbi.tagging).filter
          (fun r => r.inode ≠ inode),
        archive := dbi.archive.filter (fun f => f.path ≠ path),
        queries := dbi.queries + 4 } := by
  unfold tagsistant_find_duplicated_objects
  simp only [main_inode_of] at h
  rw [if_neg (fun e => h e.symm)]
  simp [unlink, sql_delete_object, sql_delete_tagging, sql_update_tagging_inode,
    tagsistant_query, main_inode_of]

end Tagsistant

namespace Tagsistant

theorem main_inode_of_spec (dbi : Repository) (hex : String)
    (h : ∃ o ∈ dbi.objects, o.checksum = hex) :
    (∃ o ∈ dbi.objects, o.checksum = hex ∧ o.inode = main_inode_of dbi hex) ∧
      ∀ o ∈ dbi.objects, o.checksum = hex → main_inode_of dbi hex ≤ o.inode := by
  obtain ⟨o, ho, hc⟩ := h
  have hmem : o.inode ∈ (dbi.objects.filter (fun o => o.checksum = hex)).map (fun o => o.inode) :=
    List.mem_map.mpr ⟨o, List.mem_filter.mpr ⟨ho, by simpa using hc⟩, rfl⟩
  cases hm : ((dbi.objects.filter (fun o => o.checksum = hex)).map (fun o => o.inode)).min? with
  | none =>
    rw [List.min?_eq_none_iff] at hm
    rw [hm] at hmem
    exact absurd hmem (List.not_mem_nil _)
  | some m =>
    have hmain : main_inode_of dbi hex = m := by
      simp [main_inode_of, select_inode_by_checksum, tagsistant_return_integer, hm]
    rw [hmain]
    obtain ⟨h1, h2⟩ := List.min?_eq_some_iff'.mp hm
    constructor
    · obtain ⟨p, hp, hpi⟩ := List.mem_map.mp h1
      obtain ⟨hp1, hp2⟩ := List.mem_filter.mp hp
      exact ⟨p, hp1, by simpa using hp2, hpi⟩
    · intro q hq hqc
      exact h2 _ (List.mem_map.mpr ⟨q, List.mem_filter.mpr ⟨hq, by simpa using hqc⟩, rfl⟩)

/-! ## Deduplication: merge -/

/-- C1. Tag preservation under merge: when `tagsistant_find_duplicated_objects`
merges `inode` into a different `main_inode`, the tag ids bound to `main_inode`
afterwards are those bound to it before together with those bound to `inode`
before, whether or not the two shared a tag. -/
theorem tag_preservation_under_merge (inode : Nat) (hex path : String) (dbi : Repository)
    (hmerge : main_inode_of dbi hex ≠ inode) :
    tagset (tagsistant_find_duplicated_objects inode hex path dbi).tagging (main_inode_of dbi hex)
      = tagset dbi.tagging (main_inode_of dbi hex) ∪ tagset dbi.tagging inode := by
  rw [find_duplicated_objects_merge inode hex path dbi hmerge]
  ext t
  simp only [Finset.mem_union, mem_tagset, List.mem_filter, decide_eq_true_eq,
    update_tagging_rows_main _ _ hmerge, List.not_mem_nil, false_or, ne_eq]
  constructor
  · rintro ⟨h, -⟩
    exact h
  · intro h
    exact ⟨h, hmerge⟩

/-- Witness of C1: inode 7 with tags 1 and 2 is merged into inode 4 with tags 1
and 3, the tag 1 being shared. -/
theorem tag_preservation_under_merge_witness :
    main_inode_of
        { objects := [⟨4, "a", "h"⟩, ⟨7, "b", "h"⟩],
          tagging := [⟨4, 1⟩, ⟨4, 3⟩, ⟨7, 1⟩, ⟨7, 2⟩], archive := [], queries := 0 } "h" = 4 ∧
    tagset (tagsistant_find_duplicated_objects 7 "h" "/a/7___b"
        { objects := [⟨4, "a", "h"⟩, ⟨7, "b", "h"⟩],
          tagging := [⟨4, 1⟩, ⟨4, 3⟩, ⟨7, 1⟩, ⟨7, 2⟩], archive := [], queries := 0 }).tagging 4
      = tagset [⟨4, 1⟩, ⟨4, 3⟩, ⟨7, 1⟩, ⟨7, 2⟩] 4 ∪ tagset [⟨4, 1⟩, ⟨4, 3⟩, ⟨7, 1⟩, ⟨7, 2⟩] 7 :=
  ⟨by decide,
   tag_preservation_under_merge 7 "h" "/a/7___b"
     { objects := [⟨4, "a", "h"⟩, ⟨7, "b", "h"⟩],
       tagging := [⟨4, 1⟩, ⟨4, 3⟩, ⟨7, 1⟩, ⟨7, 2⟩], archive := [], queries := 0 } (by decide)⟩

/-- C3. Survivor rule: when the object row of `inode` carries `hex` and
`tagsistant_find_duplicated_objects` merges, `main_inode` is the smallest inode
among the object rows with checksum `hex`, it is strictly smaller than `inode`,
the object rows deleted are exactly those of `inode`, and the rows of
`main_inode` stay. -/
theorem survivor_rule (inode : Nat) (hex path : String) (dbi : Repository)
    (hrow : ∃ o ∈ dbi.objects, o.inode = inode ∧ o.checksum = hex)
    (hmerge : main_inode_of dbi hex ≠ inode) :
    (∃ o ∈ dbi.objects, o.checksum = hex ∧ o.inode = main_inode_of dbi hex) ∧
    (∀ o ∈ dbi.objects, o.checksum = hex → main_inode_of dbi hex ≤ o.inode) ∧
    main_inode_of dbi hex < inode ∧
    (∀ o, o ∈ (tagsistant_find_duplicated_objects inode hex path dbi).objects ↔
      o ∈ dbi.objects ∧ o.inode ≠ inode) ∧
    (∀ o ∈ dbi.objects, o.inode = main_inode_of dbi hex →
      o ∈ (tagsistant_find_duplicated_objects inode hex path dbi).objects) := by
  obtain ⟨o, ho, hoi, hoc⟩ := hrow
  obtain ⟨hex1, hmin⟩ := main_inode_of_spec dbi hex ⟨o, ho, hoc⟩
  have hle : main_inode_of dbi hex ≤ inode := hoi ▸ hmin o ho hoc
  have hobj : ∀ p, p ∈ (tagsistant_find_duplicated_objects inode hex path dbi).objects ↔
      p ∈ dbi.objects ∧ p.inode ≠ inode := by
    intro p
    rw [find_duplicated_objects_merge inode hex path dbi hmerge]
    simp [List.mem_filter]
  refine ⟨hex1, hmin, lt_of_le_of_ne hle hmerge, hobj, ?_⟩
  intro p hp hpi
  exact (hobj p).mpr ⟨hp, fun e => hmerge (hpi ▸ e)⟩

/-- Witness of C3: inode 7, just hashed to "h", meets the earlier inodes 4 and 5
with the same checksum. -/
theorem survivor_rule_witness :
    main_inode_of
      { objects := [⟨5, "c", "h"⟩, ⟨4, "a", "h"⟩, ⟨7, "b", "h"⟩, ⟨2, "d", "k"⟩],
        tagging := [⟨7, 1⟩], archive := [], queries := 0 } "h" = 4 ∧
    (tagsistant_find_duplicated_objects 7 "h" "/a/7___b"
      { objects := [⟨5, "c", "h"⟩, ⟨4, "a", "h"⟩, ⟨7, "b", "h"⟩, ⟨2, "d", "k"⟩],
        tagging := [⟨7, 1⟩], archive := [], queries := 0 }).objects
      = [⟨5, "c", "h"⟩, ⟨4, "a", "h"⟩, ⟨2, "d", "k"⟩] ∧
    main_inode_of
      { objects := [⟨5, "c", "h"⟩, ⟨4, "a", "h"⟩, ⟨7, "b", "h"⟩, ⟨2, "d", "k"⟩],
        tagging := [⟨7, 1⟩], archive := [], queries := 0 } "h" < 7 :=
  ⟨by decide, by decide,
   (survivor_rule 7 "h" "/a/7___b"
      { objects := [⟨5, "c", "h"⟩, ⟨4, "a", "h"⟩, ⟨7, "b", "h"⟩, ⟨2, "d", "k"⟩],
        tagging := [⟨7, 1⟩], archive := [], queries := 0 }
      ⟨⟨7, "b", "h"⟩, by decide, rfl, rfl⟩ (by decide)).2.2.1⟩

/-- C4. Loser removal: after `tagsistant_find_duplicated_objects` has merged
`inode` into a different `main_inode`, no tagging row and no object row of
`inode` is left, and an object row of any other inode is in the table afterwards
exactly when it was there before, with the same objectname and checksum. -/
theorem loser_removal (inode : Nat) (hex path : String) (dbi : Repository)
    (hmerge : main_inode_of dbi hex ≠ inode) :
    (∀ r ∈ (tagsistant_find_duplicated_objects inode hex path dbi).tagging, r.inode ≠ inode) ∧
    (∀ o ∈ (tagsistant_find_duplicated_objects inode hex path dbi).objects, o.inode ≠ inode) ∧
    (tagsistant_find_duplicated_objects inode hex path dbi).objects.filter
        (fun o => o.inode ≠ inode) = dbi.objects.filter (fun o => o.inode ≠ inode) := by
  rw [find_duplicated_objects_merge inode hex path dbi hmerge]
  refine ⟨?_, ?_, ?_⟩
  · intro r hr
    simpa using (List.mem_filter.mp hr).2
  · intro o ho
    simpa using (List.mem_filter.mp ho).2
  · simp [List.filter_filter]

/-- Witness of C4: inode 7 is merged into inode 4. -/
theorem loser_removal_witness :
    main_inode_of
      { objects := [⟨4, "a", "h"⟩, ⟨7, "b", "h"⟩, ⟨9, "c", ""⟩],
        tagging := [⟨4, 1⟩, ⟨7, 1⟩, ⟨7, 2⟩, ⟨9, 2⟩], archive := [], queries := 0 } "h" ≠ 7 ∧
    (tagsistant_find_duplicated_objects 7 "h" "/a/7___b"
      { objects := [⟨4, "a", "h"⟩, ⟨7, "b", "h"⟩, ⟨9, "c", ""⟩],
        tagging := [⟨4, 1⟩, ⟨7, 1⟩, ⟨7, 2⟩, ⟨9, 2⟩], archive := [], queries := 0 }).objects.filter
        (fun o => o.inode ≠ 7) = [⟨4, "a", "h"⟩, ⟨9, "c", ""⟩] :=
  ⟨by decide,
   (loser_removal 7 "h" "/a/7___b"
      { objects := [⟨4, "a", "h"⟩, ⟨7, "b", "h"⟩, ⟨9, "c", ""⟩],
        tagging := [⟨4, 1⟩, ⟨7, 1⟩, ⟨7, 2⟩, ⟨9, 2⟩], archive := [], queries := 0 }
      (by decide)).2.2⟩

/-- C2, the code at the failing input: the store starts with no two object rows
sharing a non-empty checksum; one sweep of `tagsistant_deduplicator` hashes
inode 3, finds `main_inode = 3` and returns, so that the rows of inodes 3 and
5 both carry the same non-empty checksum afterwards. -/
theorem dedup_sweep_keeps_duplicate (sha1 : List Nat → String)
    (hhex : sha1 [72, 69, 76, 76, 79] ≠ "") :
    NoSharedChecksum (rewritten_repository sha1) ∧
    (tagsistant_deduplicator (rewritten_cfg sha1) (rewritten_repository sha1)).objects
      = [⟨3, "x", sha1 [72, 69, 76, 76, 79]⟩, ⟨5, "y", sha1 [72, 69, 76, 76, 79]⟩] ∧
    ¬ NoSharedChecksum (tagsistant_deduplicator (rewritten_cfg sha1) (rewritten_repository sha1)) := by
  have hpath : ("/repo/archive/" ++ toString 3 ++ "___" ++ "x" : String) = "/repo/archive/3___x" := by
    decide
  have hobjs : (tagsistant_deduplicator (rewritten_cfg sha1) (rewritten_repository sha1)).objects
      = [⟨3, "x", sha1 [72, 69, 76, 76, 79]⟩, ⟨5, "y", sha1 [72, 69, 76, 76, 79]⟩] := by
    simp [tagsistant_deduplicator, select_unhashed_inodes, rewritten_repository, rewritten_cfg,
      hhex, tagsistant_deduplicator_callback, tagsistant_calculate_object_checksum,
      select_objectname, tagsistant_query, lstat, hpath, sql_update_checksum,
      tagsistant_find_duplicated_objects, select_inode_by_checksum, tagsistant_return_integer,
      tagsistant_return_string, main_inode_of]
  refine ⟨?_, hobjs, ?_⟩
  · intro a ha b hb hab hne
    simp only [rewritten_repository, List.mem_cons, List.mem_singleton, List.not_mem_nil,
      or_false] at ha hb
    rcases ha with rfl | rfl <;> rcases hb with rfl | rfl
    · rfl
    · exact absurd rfl hne
    · exact absurd hab hhex
    · rfl
  · intro h
    have := h ⟨3, "x", sha1 [72, 69, 76, 76, 79]⟩ (by rw [hobjs]; simp)
      ⟨5, "y", sha1 [72, 69, 76, 76, 79]⟩ (by rw [hobjs]; simp) rfl hhex
    exact absurd this (show ¬ ((3 : Nat) = 5) by decide)

/-- Witness of the evaluation for C2, with a digest that prints the byte sum. -/
theorem dedup_sweep_keeps_duplicate_witness :
    (fun bytes : List Nat => "sum" ++ toString bytes.sum) [72, 69, 76, 76, 79] ≠ "" ∧
    ¬ NoSharedChecksum
      (tagsistant_deduplicator (rewritten_cfg (fun bytes => "sum" ++ toString bytes.sum))
        (rewritten_repository (fun bytes => "sum" ++ toString bytes.sum))) :=
  ⟨by decide,
   (dedup_sweep_keeps_duplicate (fun bytes => "sum" ++ toString bytes.sum) (by decide)).2.2⟩

theorem string_length_eq_zero (s : String) : s.length = 0 ↔ s = "" := by
  constructor
  · intro h
    cases s with
    | mk data =>
      have : data = [] := List.length_eq_zero.mp h
      subst this
      rfl
  · rintro rfl
    rfl

theorem tag_entries_none (qtree : tagsistant_querytree) :
    tag_entries qtree [none] = [] := by
  simp [tag_entries]

theorem tag_entries_some (qtree : tagsistant_querytree) (d : String) :
    tag_entries qtree [some d] =
      if d ≠ "" ∧ and_set_lists (last_and_set qtree.tree) d = false then [d] else [] := by
  unfold tag_entries
  by_cases h1 : d.length = 0
  · have hd : d = "" := (string_length_eq_zero d).mp h1
    simp [h1, hd]
  · have hd : d ≠ "" := fun e => h1 ((string_length_eq_zero d).mpr e)
    cases h2 : and_set_lists (last_and_set qtree.tree) d
    · simp [h1, hd, h2]
    · simp [h1, hd, h2]

theorem add_entry_to_dir_fst (filler : fuse_fill_dir_t) (qtree : tagsistant_querytree)
    (buf : List String) (dir : Option String) :
    (tagsistant_add_entry_to_dir filler qtree buf dir).1 = buf ++ tag_entries qtree [dir] := by
  cases dir with
  | none => simp [tagsistant_add_entry_to_dir, tag_entries_none]
  | some d =>
    rw [tag_entries_some]
    unfold tagsistant_add_entry_to_dir
    by_cases h1 : d.length = 0
    · have hd : d = "" := (string_length_eq_zero d).mp h1
      simp [h1, hd]
    · have hd : d ≠ "" := fun e => h1 ((string_length_eq_zero d).mpr e)
      cases h2 : and_set_lists (last_and_set qtree.tree) d
      · simp [h1, hd, h2, call_filler]
      · simp [h1, hd, h2]

theorem tag_entries_cons (qtree : tagsistant_querytree) (dir : Option String)
    (rows : List (Option String)) :
    tag_entries qtree (dir :: rows) = tag_entries qtree [dir] ++ tag_entries qtree rows := by
  unfold tag_entries
  rw [← List.filterMap_append]
  rfl

theorem for_each_row_add_entry (filler : fuse_fill_dir_t) (qtree : tagsistant_querytree) :
    ∀ (rows : List (Option String)) (buf : List String),
      for_each_row (tagsistant_add_entry_to_dir filler qtree) buf rows
        = buf ++ tag_entries qtree rows := by
  intro rows
  induction rows with
  | nil => intro buf; simp [for_each_row, tag_entries]
  | cons dir rows ih =>
    intro buf
    rw [for_each_row, ih, add_entry_to_dir_fst, tag_entries_cons qtree dir rows,
      List.append_assoc]

theorem mem_tag_entries (qtree : tagsistant_querytree) (rows : List (Option String))
    (name : String) :
    name ∈ tag_entries qtree rows ↔
      some name ∈ rows ∧ name ≠ "" ∧ and_set_lists (last_and_set qtree.tree) name = false := by
  induction rows with
  | nil => simp [tag_entries]
  | cons dir rows ih =>
    rw [tag_entries_cons, List.mem_append, ih, List.mem_cons]
    cases dir with
    | none => simp [tag_entries_none]
    | some d =>
      rw [tag_entries_some]
      by_cases hc : d ≠ "" ∧ and_set_lists (last_and_set qtree.tree) d = false
      · rw [if_pos hc]
        simp only [List.mem_singleton, Option.some.injEq]
        constructor
        · rintro (rfl | ⟨h, h'⟩)
          · exact ⟨Or.inl rfl, hc⟩
          · exact ⟨Or.inr h, h'⟩
        · rintro ⟨h | h, h'⟩
          · exact Or.inl h
          · exact Or.inr ⟨h, h'⟩
      · rw [if_neg hc]
        simp only [List.not_mem_nil, false_or, Option.some.injEq]
        constructor
        · rintro ⟨h, h'⟩
          exact ⟨Or.inr h, h'⟩
        · rintro ⟨h | h, h'⟩
          · subst h
            exact absurd h' hc
          · exact ⟨h, h'⟩

theorem readdir_tags_listing (env : ReaddirEnv) (filler : fuse_fill_dir_t) (path : String)
    (qtree : tagsistant_querytree)
    (h1 : qtree.malformed = false) (h2 : qtree.points_to_object = false)
    (h3 : qtree.root = false) (h4 : qtree.archive = false) (h5 : qtree.tags = true)
    (h6 : qtree.complete = false) :
    tagsistant_readdir env filler path qtree = some
      { ret := 0,
        handed := [".", ".."] ++ (if path ≠ "/tags" then ["+", "="] else []) ++
          tag_entries qtree env.tagnames } := by
  unfold tagsistant_readdir
  simp only [h1, h2, h3, h4, h5, h6, Bool.false_eq_true, if_false, if_true, READDIR_EXIT,
    for_each_row_add_entry, call_filler]
  by_cases hp : path = "/tags"
  · simp [hp]
  · simp [hp]

/-! ## Directory listing -/

theorem and_set_lists_iff (and_set : ptree_and_node_t) (dir : String) :
    and_set_lists and_set dir = true ↔ some dir ∈ and_set_tags and_set := by
  induction and_set with
  | null => simp [and_set_lists, and_set_tags]
  | node tag next ih =>
    unfold and_set_lists and_set_tags
    by_cases h : tag = some dir
    · simp [h]
    · rw [if_neg h, ih, List.mem_cons]
      constructor
      · intro hm
        exact Or.inr hm
      · rintro (hm | hm)
        · exact absurd hm.symm h
        · exact hm

theorem or_sections_getLastD (tree : ptree_or_node_t) :
    ∀ d, (or_sections tree).getLastD d = and_set_tags (last_and_set tree) := by
  induction tree with
  | last and_set => intro d; simp [or_sections, last_and_set]
  | cons and_set next ih =>
    intro d
    unfold or_sections last_and_set
    rw [List.getLastD_cons, ih]

theorem last_section_lists (tree : ptree_or_node_t) (name : String) :
    and_set_lists (last_and_set tree) name = false ↔
      some name ∉ (or_sections tree).getLastD [] := by
  rw [or_sections_getLastD, ← and_set_lists_iff]
  cases and_set_lists (last_and_set tree) name <;> simp

/-- C5. AND-suppression: `tagsistant_add_entry_to_dir` hands over at most the
name of its row, and it hands the name over exactly when the name is present,
non-empty and differs from the tag of every AND-node of the last OR section of
the querytree, the sections being taken as a list and the last one by
`List.getLastD`; hence, in the listing of a non-complete tags querytree, the
entries that follow `.`, `..` and the operators are exactly the non-empty names
of the tag table that the last OR section does not name, tags of earlier OR
sections included, and they never include a tag `A` of the last OR section. -/
theorem and_suppression (filler : fuse_fill_dir_t) (qtree : tagsistant_querytree) :
    (∀ (buf : List String) (dir : Option String),
      ((tagsistant_add_entry_to_dir filler qtree buf dir).1 = buf ∨
        ∃ name, dir = some name ∧
          (tagsistant_add_entry_to_dir filler qtree buf dir).1 = buf ++ [name]) ∧
      ∀ name, (tagsistant_add_entry_to_dir filler qtree buf dir).1 = buf ++ [name] ↔
        (dir = some name ∧ name ≠ "" ∧ some name ∉ (or_sections qtree.tree).getLastD [])) ∧
    (∀ (env : ReaddirEnv) (path : String),
      qtree.malformed = false → qtree.points_to_object = false → qtree.root = false →
      qtree.archive = false → qtree.tags = true → qtree.complete = false →
      ∃ r entries, tagsistant_readdir env filler path qtree = some r ∧
        r.handed = [".", ".."] ++ (if path ≠ "/tags" then ["+", "="] else []) ++ entries ∧
        (∀ name, name ∈ entries ↔
          (some name ∈ env.tagnames ∧ name ≠ "" ∧
            some name ∉ (or_sections qtree.tree).getLastD [])) ∧
        ∀ A, some A ∈ (or_sections qtree.tree).getLastD [] → A ∉ entries) := by
  constructor
  · intro buf dir
    rw [add_entry_to_dir_fst]
    cases dir with
    | none =>
      rw [tag_entries_none]
      refine ⟨Or.inl (List.append_nil _), ?_⟩
      intro name
      constructor
      · intro h
        have := List.append_cancel_left h
        exact absurd this (by simp)
      · rintro ⟨h, -⟩
        exact absurd h (by simp)
    | some d =>
      rw [tag_entries_some]
      by_cases hc : d ≠ "" ∧ and_set_lists (last_and_set qtree.tree) d = false
      · rw [if_pos hc]
        refine ⟨Or.inr ⟨d, rfl, rfl⟩, ?_⟩
        intro name
        constructor
        · intro h
          have hdn : d = name := by simpa using List.append_cancel_left h
          subst hdn
          exact ⟨rfl, hc.1, (last_section_lists qtree.tree d).mp hc.2⟩
        · rintro ⟨h, -⟩
          have hdn : d = name := by simpa using h
          subst hdn
          rfl
      · rw [if_neg hc]
        refine ⟨Or.inl (List.append_nil _), ?_⟩
        intro name
        constructor
        · intro h
          have := List.append_cancel_left h
          exact absurd this (by simp)
        · rintro ⟨h, h1, h2⟩
          have hdn : d = name := by simpa using h
          subst hdn
          exact absurd ⟨h1, (last_section_lists qtree.tree d).mpr h2⟩ hc
  · intro env path h1 h2 h3 h4 h5 h6
    have hmem : ∀ name, name ∈ tag_entries qtree env.tagnames ↔
        (some name ∈ env.tagnames ∧ name ≠ "" ∧
          some name ∉ (or_sections qtree.tree).getLastD []) := by
      intro name
      rw [mem_tag_entries, last_section_lists]
    refine ⟨_, tag_entries qtree env.tagnames,
      readdir_tags_listing env filler path qtree h1 h2 h3 h4 h5 h6, rfl, hmem, ?_⟩
    intro A hA hin
    exact ((hmem A).mp hin).2.2 hA

/-- Witness of C5: the querytree of `/tags/B/+/A` has the OR sections `[B]` and
`[A]`; over the tags `A`, `B`, `C`, the empty name and a `NULL` row the listing
hands over `B` and `C` after `.`, `..`, `+` and `=`, and not `A`. -/
theorem and_suppression_witness :
    or_sections (tags_qtree (.cons (.node (some "B") .null) (.last (.node (some "A") .null)))
        false).tree = [[some "B"], [some "A"]] ∧
    tagsistant_readdir (listing_env [some "A", some "B", some "C", some "", none])
        accepting_filler "/tags/B/+/A"
        (tags_qtree (.cons (.node (some "B") .null) (.last (.node (some "A") .null))) false)
      = some { ret := 0, handed := [".", "..", "+", "=", "B", "C"] } ∧
    (tagsistant_add_entry_to_dir accepting_filler
        (tags_qtree (.cons (.node (some "B") .null) (.last (.node (some "A") .null))) false)
        [".", ".."] (some "B")).1 = [".", ".."] ++ ["B"] ∧
    ∃ r entries,
      tagsistant_readdir (listing_env [some "A", some "B", some "C", some "", none])
        accepting_filler "/tags/B/+/A"
        (tags_qtree (.cons (.node (some "B") .null) (.last (.node (some "A") .null))) false)
        = some r ∧
      r.handed = [".", ".."] ++ (if "/tags/B/+/A" ≠ "/tags" then ["+", "="] else []) ++ entries ∧
      (∀ name, name ∈ entries ↔
        (some name ∈ (listing_env [some "A", some "B", some "C", some "", none]).tagnames ∧
          name ≠ "" ∧
          some name ∉ (or_sections (tags_qtree
            (.cons (.node (some "B") .null) (.last (.node (some "A") .null))) false).tree).getLastD
            [])) ∧
      ∀ A, some A ∈ (or_sections (tags_qtree
          (.cons (.node (some "B") .null) (.last (.node (some "A") .null))) false).tree).getLastD []
        → A ∉ entries :=
  ⟨by decide, by decide,
   (((and_suppression accepting_filler
      (tags_qtree (.cons (.node (some "B") .null) (.last (.node (some "A") .null))) false)).1
      [".", ".."] (some "B")).2 "B").mpr ⟨rfl, by decide, by decide⟩,
   (and_suppression accepting_filler
      (tags_qtree (.cons (.node (some "B") .null) (.last (.node (some "A") .null))) false)).2
     (listing_env [some "A", some "B", some "C", some "", none]) "/tags/B/+/A"
     rfl rfl rfl rfl rfl rfl⟩

/-- C6, counterexample: with a tag named `+` in the tag table, the listing of
`/tags` for a non-complete tags querytree contains the entry `+`. -/
theorem operator_entry_in_tags_root :
    tagsistant_readdir (listing_env [some "+"]) accepting_filler "/tags"
        (tags_qtree (.last .null) false)
      = some { ret := 0, handed := [".", "..", "+"] } := by
  decide

/-- C6, amended. Operator entries: for every non-complete tags querytree and
every tag table, `tagsistant_readdir` returns 0; for the path `/tags` it hands
over `.`, `..` and names of the tag table only, so that `+` or `=` is listed
exactly when the tag table holds a tag of that name which the last OR section
does not name; for any other path it hands over both `+` and `=`. -/
theorem operator_entries (env : ReaddirEnv) (filler : fuse_fill_dir_t) (path : String)
    (qtree : tagsistant_querytree)
    (h1 : qtree.malformed = false) (h2 : qtree.points_to_object = false)
    (h3 : qtree.root = false) (h4 : qtree.archive = false) (h5 : qtree.tags = true)
    (h6 : qtree.complete = false) :
    ∃ r, tagsistant_readdir env filler path qtree = some r ∧ r.ret = 0 ∧
      (path = "/tags" →
        r.handed = [".", ".."] ++ tag_entries qtree env.tagnames ∧
        ∀ op, op = "+" ∨ op = "=" →
          (op ∈ r.handed ↔
            some op ∈ env.tagnames ∧ and_set_lists (last_and_set qtree.tree) op = false)) ∧
      (path ≠ "/tags" → "+" ∈ r.handed ∧ "=" ∈ r.handed) := by
  refine ⟨_, readdir_tags_listing env filler path qtree h1 h2 h3 h4 h5 h6, rfl, ?_, ?_⟩
  · intro hp
    subst hp
    refine ⟨by simp, ?_⟩
    intro op hop
    have hne : op ≠ "" ∧ op ≠ "." ∧ op ≠ ".." := by
      rcases hop with rfl | rfl <;> decide
    simp only [ne_eq, not_true_eq_false, if_false, List.append_nil, List.mem_append,
      List.mem_cons, List.not_mem_nil, or_false, mem_tag_entries]
    constructor
    · rintro ((h | h) | ⟨h, -, h'⟩)
      · exact absurd h hne.2.1
      · exact absurd h hne.2.2
      · exact ⟨h, h'⟩
    · rintro ⟨h, h'⟩
      exact Or.inr ⟨h, hne.1, h'⟩
  · intro hp
    simp [hp]

/-- Witness of C6, amended: the listing of `/tags/foo` over the tags `foo` and
`bar`. -/
theorem operator_entries_witness :
    tagsistant_readdir (listing_env [some "foo", some "bar"]) accepting_filler "/tags/foo"
        (tags_qtree (.last (.node (some "foo") .null)) false)
      = some { ret := 0, handed := [".", "..", "+", "=", "bar"] } ∧
    ∃ r, tagsistant_readdir (listing_env [some "foo", some "bar"]) accepting_filler "/tags/foo"
        (tags_qtree (.last (.node (some "foo") .null)) false) = some r ∧ r.ret = 0 ∧
      ("/tags/foo" = "/tags" →
        r.handed = [".", ".."] ++ tag_entries (tags_qtree (.last (.node (some "foo") .null)) false)
          (listing_env [some "foo", some "bar"]).tagnames ∧
        ∀ op, op = "+" ∨ op = "=" →
          (op ∈ r.handed ↔
            some op ∈ (listing_env [some "foo", some "bar"]).tagnames ∧
              and_set_lists
                (last_and_set (tags_qtree (.last (.node (some "foo") .null)) false).tree) op
                = false)) ∧
      ("/tags/foo" ≠ "/tags" → "+" ∈ r.handed ∧ "=" ∈ r.handed) :=
  ⟨by decide,
   operator_entries (listing_env [some "foo", some "bar"]) accepting_filler "/tags/foo"
     (tags_qtree (.last (.node (some "foo") .null)) false) rfl rfl rfl rfl rfl rfl⟩

/-- C7. Root listing: for a querytree that is not malformed, does not point to
an object and is the root, `tagsistant_readdir` hands over `.`, `..`, `archive`,
`relations`, `stats` and `tags`, each once and nothing else, and returns 0,
whatever the store, the archive and the filler are. -/
theorem root_listing (env : ReaddirEnv) (filler : fuse_fill_dir_t) (path : String)
    (qtree : tagsistant_querytree)
    (h1 : qtree.malformed = false) (h2 : qtree.points_to_object = false)
    (h3 : qtree.root = true) :
    tagsistant_readdir env filler path qtree
      = some { ret := 0, handed := [".", "..", "archive", "relations", "stats", "tags"] } := by
  unfold tagsistant_readdir
  simp [h1, h2, h3, READDIR_EXIT, call_filler]

/-- Witness of C7: the listing of `/`. -/
theorem root_listing_witness :
    root_qtree.malformed = false ∧ root_qtree.points_to_object = false ∧
    root_qtree.root = true ∧
    tagsistant_readdir (listing_env [some "a"]) accepting_filler "/" root_qtree
      = some { ret := 0, handed := [".", "..", "archive", "relations", "stats", "tags"] } :=
  ⟨rfl, rfl, rfl, root_listing (listing_env [some "a"]) accepting_filler "/" root_qtree rfl rfl rfl⟩

/-- C8. Malformed path: for a querytree flagged malformed, whatever its other
flags, `tagsistant_readdir` returns `-ENOENT` and hands nothing to the filler,
and `tagsistant_flush` returns `-ENOENT` and leaves the store, the archive and
the count of statements sent as they were. -/
theorem malformed_path (qtree : tagsistant_querytree) (h : qtree.malformed = true) :
    (∀ (env : ReaddirEnv) (filler : fuse_fill_dir_t) (path : String),
      tagsistant_readdir env filler path qtree = some { ret := -ENOENT, handed := [] }) ∧
    (∀ (cfg : Config) (tagsistant_process : tagsistant_querytree → Repository → Repository)
      (dbi : Repository), tagsistant_flush cfg tagsistant_process qtree dbi = (-ENOENT, dbi)) := by
  constructor
  · intro env filler path
    unfold tagsistant_readdir
    simp [h, READDIR_EXIT]
  · intro cfg process dbi
    unfold tagsistant_flush
    simp [h, tagsistant_querytree_destroy]

/-- Witness of C8: a malformed querytree that is also flagged root, taggable and
pointing to an object, listed and flushed over a store with one unhashed object. -/
theorem malformed_path_witness :
    malformed_qtree.malformed = true ∧
    tagsistant_readdir (listing_env [some "a"]) accepting_filler "/bogus/thing" malformed_qtree
      = some { ret := -2, handed := [] } ∧
    tagsistant_flush { archive := "/repo/archive/", delimiter := "___", sha1 := fun _ => "h" }
        (fun _ dbi => dbi) malformed_qtree
        { objects := [⟨3, "x", ""⟩], tagging := [⟨3, 1⟩], archive := [], queries := 0 }
      = (-2, { objects := [⟨3, "x", ""⟩], tagging := [⟨3, 1⟩], archive := [], queries := 0 }) :=
  ⟨rfl,
   (malformed_path malformed_qtree rfl).1 (listing_env [some "a"]) accepting_filler "/bogus/thing",
   (malformed_path malformed_qtree rfl).2
     { archive := "/repo/archive/", delimiter := "___", sha1 := fun _ => "h" } (fun _ dbi => dbi)
     { objects := [⟨3, "x", ""⟩], tagging := [⟨3, 1⟩], archive := [], queries := 0 }⟩

/-- C9, the code at the failing input: for a complete tags querytree whose
filetree build yields `NULL`, `tagsistant_readdir` sets `tagsistant_errno` to
`EBADF` but leaves `res` at 0, so that it returns 0 after handing over `.` and
`..`. -/
theorem empty_filetree_returns_zero (env : ReaddirEnv) (filler : fuse_fill_dir_t)
    (path : String) (qtree : tagsistant_querytree)
    (h1 : qtree.malformed = false) (h2 : qtree.points_to_object = false)
    (h3 : qtree.root = false) (h4 : qtree.archive = false) (h5 : qtree.tags = true)
    (h6 : qtree.complete = true)
    (h7 : env.tagsistant_build_filetree qtree.tree path = none) :
    tagsistant_readdir env filler path qtree = some { ret := 0, handed := [".", ".."] } ∧
    ∀ r, tagsistant_readdir env filler path qtree = some r → r.ret ≠ -EBADF := by
  have h : tagsistant_readdir env filler path qtree = some { ret := 0, handed := [".", ".."] } := by
    unfold tagsistant_readdir
    simp [h1, h2, h3, h4, h5, h6, h7, READDIR_EXIT, call_filler]
  refine ⟨h, ?_⟩
  intro r hr
  rw [h] at hr
  cases hr
  decide

/-- Witness of the evaluation for C9: the listing of `/tags/a/=` when the
filetree build yields `NULL`. -/
theorem empty_filetree_returns_zero_witness :
    (listing_env []).tagsistant_build_filetree
      (tags_qtree (.last (.node (some "a") .null)) true).tree "/tags/a/=" = none ∧
    tagsistant_readdir (listing_env []) accepting_filler "/tags/a/="
        (tags_qtree (.last (.node (some "a") .null)) true)
      = some { ret := 0, handed := [".", ".."] } :=
  ⟨rfl,
   (empty_filetree_returns_zero (listing_env []) accepting_filler "/tags/a/="
     (tags_qtree (.last (.node (some "a") .null)) true) rfl rfl rfl rfl rfl rfl rfl).1⟩

/-! ## Lemmas on decimal renderings and the inode expression -/

theorem toString_data (n : Nat) : (toString n).data = Nat.toDigits 10 n := rfl

theorem digitChar_isDigit (d : Nat) (h : d < 10) :
    (Nat.digitChar d).isDigit = true ∧ (Nat.digitChar d).toNat - 48 = d := by
  interval_cases d <;> decide

theorem toDigitsCore_append (fuel : Nat) :
    ∀ (n : Nat) (ds : List Char),
      Nat.toDigitsCore 10 fuel n ds = Nat.toDigitsCore 10 fuel n [] ++ ds := by
  induction fuel with
  | zero => intro n ds; simp [Nat.toDigitsCore]
  | succ fuel ih =>
    intro n ds
    simp only [Nat.toDigitsCore]
    split
    · simp
    · rw [ih (n / 10) (Nat.digitChar (n % 10) :: ds), ih (n / 10) [Nat.digitChar (n % 10)]]
      simp

theorem decimal_value_append (xs : List Char) (c : Char) :
    decimal_value (xs ++ [c]) = 10 * decimal_value xs + (c.toNat - 48) := by
  simp [decimal_value, List.foldl_append]

theorem toDigitsCore_spec (fuel : Nat) :
    ∀ n, n < fuel →
      decimal_value (Nat.toDigitsCore 10 fuel n []) = n ∧
      (∀ c ∈ Nat.toDigitsCore 10 fuel n [], c.isDigit = true) ∧
      Nat.toDigitsCore 10 fuel n [] ≠ [] := by
  induction fuel with
  | zero => intro n h; omega
  | succ fuel ih =>
    intro n hn
    have hd := digitChar_isDigit (n % 10) (Nat.mod_lt _ (by decide))
    simp only [Nat.toDigitsCore]
    split
    · rename_i h0
      have hlt : n < 10 := by omega
      refine ⟨?_, ?_, by simp⟩
      · have := decimal_value_append [] (Nat.digitChar (n % 10))
        simp only [List.nil_append] at this
        rw [this, hd.2]
        simp [decimal_value]
        omega
      · intro c hc
        simp only [List.mem_singleton] at hc
        subst hc
        exact hd.1
    · rename_i h0
      have hlt : n / 10 < fuel := by omega
      obtain ⟨ih1, ih2, -⟩ := ih (n / 10) hlt
      rw [toDigitsCore_append]
      refine ⟨?_, ?_, by simp⟩
      · rw [decimal_value_append, ih1, hd.2]
        omega
      · intro c hc
        simp only [List.mem_append, List.mem_singleton] at hc
        rcases hc with hc | hc
        · exact ih2 c hc
        · subst hc
          exact hd.1

theorem toDigits_spec (n : Nat) :
    decimal_value (Nat.toDigits 10 n) = n ∧
    (∀ c ∈ Nat.toDigits 10 n, c.isDigit = true) ∧ Nat.toDigits 10 n ≠ [] :=
  toDigitsCore_spec (n + 1) n (Nat.lt_succ_self n)

theorem takeWhile_digits (ds : List Char) (c : Char) (tl : List Char)
    (hds : ∀ x ∈ ds, x.isDigit = true) (hc : c.isDigit = false) :
    (ds ++ c :: tl).takeWhile Char.isDigit = ds := by
  induction ds with
  | nil => simp [List.takeWhile, hc]
  | cons d ds ih =>
    have hd : d.isDigit = true := hds d (List.mem_cons_self _ _)
    rw [List.cons_append, List.takeWhile_cons, hd, if_pos rfl,
      ih (fun x hx => hds x (List.mem_cons_of_mem _ hx))]

theorem backtrack_group_some (delim subject : List Char) :
    ∀ k j, backtrack_group delim subject k = some j →
      1 ≤ j ∧ j ≤ k ∧ delim <+: subject.drop j := by
  intro k
  induction k with
  | zero => intro j h; simp [backtrack_group] at h
  | succ k ih =>
    intro j h
    unfold backtrack_group at h
    split at h
    · rename_i hp
      cases h
      exact ⟨by omega, le_refl _, List.isPrefixOf_iff_prefix.mp hp⟩
    · obtain ⟨h1, h2, h3⟩ := ih j h
      exact ⟨h1, by omega, h3⟩

theorem g_regex_match_prefixed (ds delim rest : List Char) (c : Char) (tl : List Char)
    (hdelim : delim = c :: tl) (hc : c.isDigit = false)
    (hds : ∀ x ∈ ds, x.isDigit = true) (hne : ds ≠ []) :
    g_regex_match delim (ds ++ delim ++ rest) = some ds.length := by
  unfold g_regex_match leading_digits
  have htw : (ds ++ delim ++ rest).takeWhile Char.isDigit = ds := by
    rw [hdelim, List.append_assoc, List.cons_append]
    exact takeWhile_digits ds c (tl ++ rest) hds hc
  rw [htw]
  obtain ⟨k, hk⟩ : ∃ k, ds.length = k + 1 :=
    ⟨ds.length - 1, by have := List.length_pos.mpr hne; omega⟩
  rw [hk]
  unfold backtrack_group
  have hdrop : (ds ++ delim ++ rest).drop (k + 1) = delim ++ rest := by
    rw [← hk, List.append_assoc, List.drop_left]
  rw [hdrop, if_pos (List.isPrefixOf_iff_prefix.mpr (List.prefix_append _ _))]

theorem g_regex_match_none (delim subject : List Char)
    (h : ¬ ∃ ds rest, ds ≠ [] ∧ (∀ x ∈ ds, x.isDigit = true) ∧ subject = ds ++ delim ++ rest) :
    g_regex_match delim subject = none := by
  cases hm : g_regex_match delim subject with
  | none => rfl
  | some j =>
    exfalso
    apply h
    obtain ⟨h1, h2, rest, h3⟩ := backtrack_group_some delim subject _ j hm
    refine ⟨subject.take j, rest, ?_, ?_, ?_⟩
    · intro e
      have hlen : (subject.take j).length = 0 := by rw [e]; rfl
      have hle : j ≤ subject.length := by
        have : (subject.takeWhile Char.isDigit).length ≤ subject.length :=
          (List.takeWhile_sublist _).length_le
        unfold leading_digits at h2
        omega
      rw [List.length_take] at hlen
      omega
    · intro x hx
      have hpre : subject.take j <+: subject.takeWhile Char.isDigit := by
        have htd := List.takeWhile_append_dropWhile Char.isDigit subject
        have : subject.take j = (subject.takeWhile Char.isDigit).take j := by
          conv_lhs => rw [← htd]
          rw [List.take_append_of_le_length h2]
        rw [this]
        exact List.take_prefix _ _
      exact List.mem_takeWhile_imp (hpre.subset hx)
    · rw [List.append_assoc, h3, List.take_append_drop]

/-! ## Inode prefix -/

/-- C10. Inode-prefix round trip: with a delimiter that starts with a character
other than a digit and an `unsigned long` at least as wide as `tagsistant_inode`,
for every inode `n` representable in `tagsistant_inode` and every objectname `s`,
`tagsistant_inode_extract_from_path` on the object path `n` in decimal, then the
delimiter, then `s`, returns `n` and leaves the object path `s` (the prefix
goes once, also when `s` starts with digits and the delimiter); on an object
path that does not start with one or more digits followed by the delimiter, and
on a `NULL` object path, it returns 0 and leaves the querytree as it was. -/
theorem inode_prefix_round_trip (inode_bits ulong_bits : Nat) (delim : String)
    (qtree : tagsistant_querytree) :
    (∀ (n : Nat) (s : String) (c : Char) (tl : List Char),
      delim.data = c :: tl → c.isDigit = false → inode_bits ≤ ulong_bits →
      n < 2 ^ inode_bits →
      qtree.object_path = some (toString n ++ delim ++ s) →
      tagsistant_inode_extract_from_path inode_bits ulong_bits delim (some qtree)
        = (n, some { qtree with object_path := some s })) ∧
    (∀ p : String, qtree.object_path = some p →
      (¬ ∃ ds rest, ds ≠ [] ∧ (∀ x ∈ ds, x.isDigit = true) ∧
        p.data = ds ++ delim.data ++ rest) →
      tagsistant_inode_extract_from_path inode_bits ulong_bits delim (some qtree)
        = (0, some qtree)) ∧
    (qtree.object_path = none →
      tagsistant_inode_extract_from_path inode_bits ulong_bits delim (some qtree)
        = (0, some qtree)) := by
  refine ⟨?_, ?_, ?_⟩
  · intro n s c tl hdelim hc hbits hn hpath
    obtain ⟨hval, hdig, hne⟩ := toDigits_spec n
    have hdata : (toString n ++ delim ++ s).data = Nat.toDigits 10 n ++ delim.data ++ s.data := by
      simp [toString_data]
    have hmatch := g_regex_match_prefixed (Nat.toDigits 10 n) delim.data s.data c tl hdelim hc
      hdig hne
    have hn' : n < 2 ^ ulong_bits :=
      lt_of_lt_of_le hn (Nat.pow_le_pow_right (by decide) hbits)
    unfold tagsistant_inode_extract_from_path
    simp only [hpath, hdata, hmatch]
    have htake : (Nat.toDigits 10 n ++ delim.data ++ s.data).take (Nat.toDigits 10 n).length
        = Nat.toDigits 10 n := by
      rw [List.append_assoc, List.take_left]
    have hdrop : (Nat.toDigits 10 n ++ delim.data ++ s.data).drop
        ((Nat.toDigits 10 n).length + delim.data.length) = s.data := by
      rw [← List.length_append, List.drop_left]
    rw [htake, hdrop]
    unfold strtoul
    rw [hval, if_pos hn', Nat.mod_eq_of_lt hn]
  · intro p hpath hno
    unfold tagsistant_inode_extract_from_path
    simp only [hpath, g_regex_match_none delim.data p.data hno]
  · intro hpath
    unfold tagsistant_inode_extract_from_path
    simp only [hpath]

/-- Witness of C10: inode 12 before an objectname that itself starts with digits
and the delimiter, and an object path without inode prefix. -/
theorem inode_prefix_round_trip_witness :
    tagsistant_inode_extract_from_path 32 64 "___"
        (some { tags_qtree (.last .null) true with object_path := some "12___34___x" })
      = (12, some { tags_qtree (.last .null) true with object_path := some "34___x" }) ∧
    tagsistant_inode_extract_from_path 32 64 "___"
        (some { tags_qtree (.last .null) true with object_path := some "cat.jpg" })
      = (0, some { tags_qtree (.last .null) true with object_path := some "cat.jpg" }) :=
  ⟨(inode_prefix_round_trip 32 64 "___"
      { tags_qtree (.last .null) true with object_path := some "12___34___x" }).1
      12 "34___x" '_' ['_', '_'] rfl (by decide) (by decide) (by decide) rfl,
   (inode_prefix_round_trip 32 64 "___"
      { tags_qtree (.last .null) true with object_path := some "cat.jpg" }).2.1
      "cat.jpg" rfl (by
        rintro ⟨ds, rest, hne, hdig, heq⟩
        cases ds with
        | nil => exact hne rfl
        | cons d ds =>
          have hd : d = 'c' := by
            have := congrArg List.head? heq
            simpa using this.symm
          have := hdig d (List.mem_cons_self _ _)
          rw [hd] at this
          exact absurd this (by decide))⟩

end Tagsistant

namespace Tagsistant

/-! ## Lemmas on object creation -/

theorem metadata_grows_refl (m : Metadata) : metadata_grows m m :=
  ⟨fun _ h => h, fun _ h => h, rfl, rfl, rfl⟩

theorem metadata_grows_trans {a b c : Metadata} (h1 : metadata_grows a b)
    (h2 : metadata_grows b c) : metadata_grows a c :=
  ⟨fun r h => h2.1 r (h1.1 r h), fun r h => h2.2.1 r (h1.2.1 r h),
   h2.2.2.1.trans h1.2.2.1, h2.2.2.2.1.trans h1.2.2.2.1, h2.2.2.2.2.trans h1.2.2.2.2⟩

theorem tag_bound_of_grows {inode : Nat} {tagname : String} {m m' : Metadata}
    (h : metadata_grows m m') (hb : tag_bound inode tagname m) : tag_bound inode tagname m' := by
  obtain ⟨row, hrow, hname, htag⟩ := hb
  exact ⟨row, h.1 row hrow, hname, h.2.1 _ htag⟩

theorem tag_object_grows (store : StoreEnv) (inode : Nat) (tag : Option String) (m : Metadata) :
    metadata_grows m (tagsistant_sql_tag_object store inode tag m) := by
  cases tag with
  | none => exact metadata_grows_refl m
  | some tagname =>
    unfold tagsistant_sql_tag_object
    simp only
    have htags : ∀ r ∈ m.tags, r ∈ (if m.tags.any (fun r => r.tagname = tagname) then m.tags
        else m.tags ++ [⟨store.next_tag_id m.tags, tagname⟩]) := by
      intro r hr
      split
      · exact hr
      · exact List.mem_append_left _ hr
    split
    · exact ⟨htags, fun _ h => h, rfl, rfl, rfl⟩
    · refine ⟨htags, ?_, rfl, rfl, rfl⟩
      intro r hr
      simp only
      split
      · exact hr
      · exact List.mem_append_left _ hr

theorem tag_object_binds (store : StoreEnv) (inode : Nat) (tagname : String) (m : Metadata) :
    tag_bound inode tagname (tagsistant_sql_tag_object store inode (some tagname) m) := by
  unfold tagsistant_sql_tag_object
  simp only
  have hex : ∃ r ∈ (if m.tags.any (fun r => r.tagname = tagname) then m.tags
      else m.tags ++ [⟨store.next_tag_id m.tags, tagname⟩]), r.tagname = tagname := by
    split
    · rename_i h
      obtain ⟨r, hr, hn⟩ := List.any_eq_true.mp h
      exact ⟨r, hr, by simpa using hn⟩
    · exact ⟨⟨store.next_tag_id m.tags, tagname⟩, by simp, rfl⟩
  split
  · rename_i hnone
    obtain ⟨r, hr, hn⟩ := hex
    have := List.find?_eq_none.mp hnone r hr
    simp [hn] at this
  · rename_i row hsome
    have hmem := List.mem_of_find?_eq_some hsome
    have hname : row.tagname = tagname := by
      have := List.find?_some hsome
      simpa using this
    refine ⟨row, hmem, hname, ?_⟩
    simp only
    split
    · assumption
    · simp

theorem traverse_and_set_spec (store : StoreEnv) (inode : Nat) :
    ∀ (and_set : ptree_and_node_t) (m : Metadata),
      metadata_grows m (traverse_and_set (tagsistant_sql_tag_object store inode) and_set m) ∧
      ∀ tag, and_set_lists and_set tag = true →
        tag_bound inode tag (traverse_and_set (tagsistant_sql_tag_object store inode) and_set m) := by
  intro and_set
  induction and_set with
  | null =>
    intro m
    exact ⟨metadata_grows_refl m, fun tag h => by simp [and_set_lists] at h⟩
  | node tag next ih =>
    intro m
    obtain ⟨hg, hb⟩ := ih (tagsistant_sql_tag_object store inode tag m)
    refine ⟨metadata_grows_trans (tag_object_grows store inode tag m) hg, ?_⟩
    intro t ht
    unfold and_set_lists at ht
    unfold traverse_and_set
    by_cases htag : tag = some t
    · subst htag
      exact tag_bound_of_grows hg (tag_object_binds store inode t m)
    · rw [if_neg htag] at ht
      exact hb t ht

theorem traverse_spec (store : StoreEnv) (inode : Nat) :
    ∀ (tree : ptree_or_node_t) (m : Metadata),
      metadata_grows m
        (tagsistant_querytree_traverse (tagsistant_sql_tag_object store inode) tree m) ∧
      ∀ tag, tree_lists tree tag = true →
        tag_bound inode tag
          (tagsistant_querytree_traverse (tagsistant_sql_tag_object store inode) tree m) := by
  intro tree
  induction tree with
  | last and_set =>
    intro m
    exact traverse_and_set_spec store inode and_set m
  | cons and_set next ih =>
    intro m
    obtain ⟨hg1, hb1⟩ := traverse_and_set_spec store inode and_set m
    obtain ⟨hg2, hb2⟩ := ih (traverse_and_set (tagsistant_sql_tag_object store inode) and_set m)
    refine ⟨metadata_grows_trans hg1 hg2, ?_⟩
    intro t ht
    unfold tree_lists at ht
    unfold tagsistant_querytree_traverse
    rcases Bool.or_eq_true _ _ ▸ ht with h | h
    · exact tag_bound_of_grows hg2 (hb1 t h)
    · exact hb2 t h

theorem last_insert_id_of_insert (store : StoreEnv) (objectname : String) (dbi : Repository) :
    tagsistant_last_insert_id (sql_insert_object store objectname dbi)
      = store.next_inode dbi.objects := by
  simp [tagsistant_last_insert_id, sql_insert_object, tagsistant_query]

theorem lookup_value (dbi : Repository) (objectname : String) :
    tagsistant_return_integer 0 (select_inode_by_objectname dbi objectname) =
      match dbi.objects.filter (fun o => o.objectname = objectname) with
      | [] => 0
      | o :: _ => o.inode := by
  unfold select_inode_by_objectname tagsistant_return_integer
  cases dbi.objects.filter (fun o => o.objectname = objectname) with
  | nil => rfl
  | cons o rest => simp

theorem create_or_find_forced (store : StoreEnv) (qtree : tagsistant_querytree)
    (dbi : Repository) :
    create_or_find_object store qtree true dbi =
      (store.next_inode dbi.objects,
       { dbi with
         objects := dbi.objects ++
           [⟨store.next_inode dbi.objects, qtree.object_path.getD "(null)", ""⟩]
         queries := dbi.queries + 1 }) := by
  unfold create_or_find_object
  simp only [if_true, true_or]
  rw [last_insert_id_of_insert]
  simp [sql_insert_object, tagsistant_query]

theorem create_or_find_found (store : StoreEnv) (qtree : tagsistant_querytree)
    (dbi : Repository) (o : ObjectRow) (rest : List ObjectRow)
    (hrows : dbi.objects.filter (fun r => r.objectname = qtree.object_path.getD "(null)")
      = o :: rest)
    (hne : o.inode ≠ 0) :
    create_or_find_object store qtree false dbi =
      (o.inode, { dbi with queries := dbi.queries + 1 }) := by
  unfold create_or_find_object
  simp [lookup_value, hrows, hne, tagsistant_query]

theorem create_or_find_inserts (store : StoreEnv) (qtree : tagsistant_querytree)
    (dbi : Repository)
    (hlook : tagsistant_return_integer 0
      (select_inode_by_objectname dbi (qtree.object_path.getD "(null)")) = 0) :
    create_or_find_object store qtree false dbi =
      (store.next_inode dbi.objects,
       { dbi with
         objects := dbi.objects ++
           [⟨store.next_inode dbi.objects, qtree.object_path.getD "(null)", ""⟩]
         queries := dbi.queries + 2 }) := by
  unfold create_or_find_object
  simp only [Bool.false_eq_true, if_false, hlook, or_true, if_true]
  rw [last_insert_id_of_insert]
  simp [sql_insert_object, tagsistant_query]

theorem create_or_find_tagging (store : StoreEnv) (qtree : tagsistant_querytree)
    (force_create : Bool) (dbi : Repository) :
    (create_or_find_object store qtree force_create dbi).2.tagging = dbi.tagging := by
  unfold create_or_find_object
  cases force_create
  · by_cases h : tagsistant_return_integer 0
        (select_inode_by_objectname dbi (qtree.object_path.getD "(null)")) = 0
    · simp [h, sql_insert_object, tagsistant_query]
    · simp [h, tagsistant_query]
  · simp [sql_insert_object, tagsistant_query]

theorem int_of_inode_small (int_bits inode : Nat) (h : inode < 2 ^ (int_bits - 1)) :
    int_of_inode int_bits inode = (inode : Int) := by
  have hle : 2 ^ (int_bits - 1) ≤ 2 ^ int_bits :=
    Nat.pow_le_pow_right (by decide) (Nat.sub_le _ _)
  have hmod : inode % 2 ^ int_bits = inode := Nat.mod_eq_of_lt (lt_of_lt_of_le h hle)
  unfold int_of_inode
  rw [hmod, if_pos h]

theorem create_result_zero (cfg : Config) (store : StoreEnv) (int_bits : Nat)
    (qtree : tagsistant_querytree) (tagsistant_errno : Int) (force_create : Bool)
    (tags : List TagRow) (dbi : Repository)
    (h0 : (create_or_find_object store qtree force_create dbi).1 = 0) :
    tagsistant_inner_create_and_tag_object cfg store int_bits qtree tagsistant_errno
        force_create tags dbi =
      { ret := -1, tagsistant_errno := EIO, qtree := qtree, tags := tags,
        dbi := (create_or_find_object store qtree force_create dbi).2 } := by
  unfold tagsistant_inner_create_and_tag_object
  simp [h0]

theorem create_result_nonzero (cfg : Config) (store : StoreEnv) (int_bits : Nat)
    (qtree : tagsistant_querytree) (tagsistant_errno : Int) (force_create : Bool)
    (tags : List TagRow) (dbi : Repository)
    (h0 : (create_or_find_object store qtree force_create dbi).1 ≠ 0) :
    (tagsistant_inner_create_and_tag_object cfg store int_bits qtree tagsistant_errno
        force_create tags dbi).ret
      = int_of_inode int_bits (create_or_find_object store qtree force_create dbi).1 ∧
    (tagsistant_inner_create_and_tag_object cfg store int_bits qtree tagsistant_errno
        force_create tags dbi).tagsistant_errno = tagsistant_errno ∧
    (tagsistant_inner_create_and_tag_object cfg store int_bits qtree tagsistant_errno
        force_create tags dbi).qtree.inode
      = (create_or_find_object store qtree force_create dbi).1 ∧
    (∀ tag, tree_lists qtree.tree tag = true →
      tag_bound (create_or_find_object store qtree force_create dbi).1 tag
        { tags := (tagsistant_inner_create_and_tag_object cfg store int_bits qtree
            tagsistant_errno force_create tags dbi).tags,
          dbi := (tagsistant_inner_create_and_tag_object cfg store int_bits qtree
            tagsistant_errno force_create tags dbi).dbi }) ∧
    (∀ r ∈ dbi.tagging,
      r ∈ (tagsistant_inner_create_and_tag_object cfg store int_bits qtree tagsistant_errno
        force_create tags dbi).dbi.tagging) := by
  have hr : tagsistant_inner_create_and_tag_object cfg store int_bits qtree tagsistant_errno
      force_create tags dbi =
      { ret := int_of_inode int_bits (create_or_find_object store qtree force_create dbi).1,
        tagsistant_errno := tagsistant_errno,
        qtree := tagsistant_querytree_set_inode cfg qtree
          (create_or_find_object store qtree force_create dbi).1,
        tags := (tagsistant_querytree_traverse
          (tagsistant_sql_tag_object store (create_or_find_object store qtree force_create dbi).1)
          qtree.tree
          { tags := tags, dbi := (create_or_find_object store qtree force_create dbi).2 }).tags,
        dbi := (tagsistant_querytree_traverse
          (tagsistant_sql_tag_object store (create_or_find_object store qtree force_create dbi).1)
          qtree.tree
          { tags := tags, dbi := (create_or_find_object store qtree force_create dbi).2 }).dbi } := by
    unfold tagsistant_inner_create_and_tag_object
    simp [h0]
  obtain ⟨hg, hb⟩ := traverse_spec store (create_or_find_object store qtree force_create dbi).1
    qtree.tree { tags := tags, dbi := (create_or_find_object store qtree force_create dbi).2 }
  rw [hr]
  refine ⟨rfl, rfl, rfl, ?_, ?_⟩
  · intro tag htag
    exact hb tag htag
  · intro r hr'
    exact hg.2.1 r (by
      show r ∈ (create_or_find_object store qtree force_create dbi).2.tagging
      rw [create_or_find_tagging]
      exact hr')

theorem create_objects (cfg : Config) (store : StoreEnv) (int_bits : Nat)
    (qtree : tagsistant_querytree) (tagsistant_errno : Int) (force_create : Bool)
    (tags : List TagRow) (dbi : Repository) :
    (tagsistant_inner_create_and_tag_object cfg store int_bits qtree tagsistant_errno
        force_create tags dbi).dbi.objects
      = (create_or_find_object store qtree force_create dbi).2.objects := by
  unfold tagsistant_inner_create_and_tag_object
  by_cases h0 : (create_or_find_object store qtree force_create dbi).1 = 0
  · simp [h0]
  · simp only [h0, if_false]
    exact (traverse_spec store _ qtree.tree _).1.2.2.1

/-! ## Object creation -/

/-- C11, counterexample: the store gives the new object the inode 4294967295;
with a 32-bit `int` the call binds the tag to that inode, leaves
`*tagsistant_errno` at 0 and returns -1, not the inode. -/
theorem create_returns_minus_one_for_large_inode :
    (create_or_find_object large_store (photo_qtree 0 "cat.jpg") false
        { objects := [], tagging := [], archive := [], queries := 0 }).1 = 4294967295 ∧
    (tagsistant_inner_create_and_tag_object example_cfg large_store 32 (photo_qtree 0 "cat.jpg")
        0 false [] { objects := [], tagging := [], archive := [], queries := 0 }).ret = -1 ∧
    (tagsistant_inner_create_and_tag_object example_cfg large_store 32 (photo_qtree 0 "cat.jpg")
        0 false [] { objects := [], tagging := [], archive := [], queries := 0 }).tagsistant_errno
      = 0 ∧
    (tagsistant_inner_create_and_tag_object example_cfg large_store 32 (photo_qtree 0 "cat.jpg")
        0 false [] { objects := [], tagging := [], archive := [], queries := 0 }).dbi.tagging
      = [⟨4294967295, 1⟩] := by
  decide

/-- C11, amended. Create fails on inode 0: when the inode obtained from the
store, by lookup or by last-insert-id, is 0, `tagsistant_inner_create_and_tag_object`
returns -1 with `*tagsistant_errno` set to `EIO` and leaves the querytree, the
tags and the tagging rows as they were; when the inode is not 0 it leaves
`*tagsistant_errno` alone, patches the querytree with the inode, binds every tag
named in the querytree to it, keeps the earlier tagging rows and returns the
inode converted to `int`; for an inode below `2 ^ (int_bits - 1)` that result is
the inode itself, so that -1 with `EIO` is returned exactly when the inode is
0. -/
theorem create_fails_on_inode_zero (cfg : Config) (store : StoreEnv) (int_bits : Nat)
    (qtree : tagsistant_querytree) (tagsistant_errno : Int) (force_create : Bool)
    (tags : List TagRow) (dbi : Repository) :
    ((create_or_find_object store qtree force_create dbi).1 = 0 →
      (tagsistant_inner_create_and_tag_object cfg store int_bits qtree tagsistant_errno
          force_create tags dbi).ret = -1 ∧
      (tagsistant_inner_create_and_tag_object cfg store int_bits qtree tagsistant_errno
          force_create tags dbi).tagsistant_errno = EIO ∧
      (tagsistant_inner_create_and_tag_object cfg store int_bits qtree tagsistant_errno
          force_create tags dbi).qtree = qtree ∧
      (tagsistant_inner_create_and_tag_object cfg store int_bits qtree tagsistant_errno
          force_create tags dbi).tags = tags ∧
      (tagsistant_inner_create_and_tag_object cfg store int_bits qtree tagsistant_errno
          force_create tags dbi).dbi.tagging = dbi.tagging) ∧
    ((create_or_find_object store qtree force_create dbi).1 ≠ 0 →
      (tagsistant_inner_create_and_tag_object cfg store int_bits qtree tagsistant_errno
          force_create tags dbi).ret
        = int_of_inode int_bits (create_or_find_object store qtree force_create dbi).1 ∧
      (tagsistant_inner_create_and_tag_object cfg store int_bits qtree tagsistant_errno
          force_create tags dbi).tagsistant_errno = tagsistant_errno ∧
      (tagsistant_inner_create_and_tag_object cfg store int_bits qtree tagsistant_errno
          force_create tags dbi).qtree.inode
        = (create_or_find_object store qtree force_create dbi).1 ∧
      (∀ tag, tree_lists qtree.tree tag = true →
        tag_bound (create_or_find_object store qtree force_create dbi).1 tag
          { tags := (tagsistant_inner_create_and_tag_object cfg store int_bits qtree
              tagsistant_errno force_create tags dbi).tags,
            dbi := (tagsistant_inner_create_and_tag_object cfg store int_bits qtree
              tagsistant_errno force_create tags dbi).dbi }) ∧
      (∀ r ∈ dbi.tagging,
        r ∈ (tagsistant_inner_create_and_tag_object cfg store int_bits qtree tagsistant_errno
          force_create tags dbi).dbi.tagging)) ∧
    ((create_or_find_object store qtree force_create dbi).1 < 2 ^ (int_bits - 1) →
      ((tagsistant_inner_create_and_tag_object cfg store int_bits qtree tagsistant_errno
            force_create tags dbi).ret = -1 ∧
        (tagsistant_inner_create_and_tag_object cfg store int_bits qtree tagsistant_errno
            force_create tags dbi).tagsistant_errno = EIO ↔
        (create_or_find_object store qtree force_create dbi).1 = 0) ∧
      ((create_or_find_object store qtree force_create dbi).1 ≠ 0 →
        (tagsistant_inner_create_and_tag_object cfg store int_bits qtree tagsistant_errno
            force_create tags dbi).ret
          = ((create_or_find_object store qtree force_create dbi).1 : Int))) := by
  have hzero : (create_or_find_object store qtree force_create dbi).1 = 0 →
      (tagsistant_inner_create_and_tag_object cfg store int_bits qtree tagsistant_errno
          force_create tags dbi).ret = -1 ∧
      (tagsistant_inner_create_and_tag_object cfg store int_bits qtree tagsistant_errno
          force_create tags dbi).tagsistant_errno = EIO ∧
      (tagsistant_inner_create_and_tag_object cfg store int_bits qtree tagsistant_errno
          force_create tags dbi).qtree = qtree ∧
      (tagsistant_inner_create_and_tag_object cfg store int_bits qtree tagsistant_errno
          force_create tags dbi).tags = tags ∧
      (tagsistant_inner_create_and_tag_object cfg store int_bits qtree tagsistant_errno
          force_create tags dbi).dbi.tagging = dbi.tagging := by
    intro h0
    rw [create_result_zero cfg store int_bits qtree tagsistant_errno force_create tags dbi h0]
    exact ⟨rfl, rfl, rfl, rfl, create_or_find_tagging store qtree force_create dbi⟩
  refine ⟨hzero,
    create_result_nonzero cfg store int_bits qtree tagsistant_errno force_create tags dbi, ?_⟩
  intro hsmall
  have hret : (create_or_find_object store qtree force_create dbi).1 ≠ 0 →
      (tagsistant_inner_create_and_tag_object cfg store int_bits qtree tagsistant_errno
          force_create tags dbi).ret
        = ((create_or_find_object store qtree force_create dbi).1 : Int) := by
    intro h0
    rw [(create_result_nonzero cfg store int_bits qtree tagsistant_errno force_create tags dbi
      h0).1, int_of_inode_small _ _ hsmall]
  refine ⟨⟨?_, fun h0 => ⟨(hzero h0).1, (hzero h0).2.1⟩⟩, hret⟩
  rintro ⟨hm, -⟩
  by_contra h0
  rw [hret h0] at hm
  omega

/-- Witness of C11, amended: a store that records the new object as inode 0
gives -1 and `EIO` with nothing bound; a store that counts up gives inode 1,
which is returned with the tag `photo` bound to it. -/
theorem create_fails_on_inode_zero_witness :
    ((tagsistant_inner_create_and_tag_object example_cfg zero_store 32 (photo_qtree 0 "cat.jpg")
        0 false [] { objects := [], tagging := [], archive := [], queries := 0 }).ret = -1 ∧
      (tagsistant_inner_create_and_tag_object example_cfg zero_store 32 (photo_qtree 0 "cat.jpg")
        0 false [] { objects := [], tagging := [], archive := [], queries := 0 }).tagsistant_errno
        = 5 ∧
      (tagsistant_inner_create_and_tag_object example_cfg zero_store 32 (photo_qtree 0 "cat.jpg")
        0 false [] { objects := [], tagging := [], archive := [], queries := 0 }).qtree
        = photo_qtree 0 "cat.jpg" ∧
      (tagsistant_inner_create_and_tag_object example_cfg zero_store 32 (photo_qtree 0 "cat.jpg")
        0 false [] { objects := [], tagging := [], archive := [], queries := 0 }).tags = [] ∧
      (tagsistant_inner_create_and_tag_object example_cfg zero_store 32 (photo_qtree 0 "cat.jpg")
        0 false [] { objects := [], tagging := [], archive := [], queries := 0 }).dbi.tagging
        = []) ∧
    (tagsistant_inner_create_and_tag_object example_cfg autoincrement_store 32
        (photo_qtree 0 "cat.jpg") 0 false []
        { objects := [], tagging := [], archive := [], queries := 0 }).ret = 1 ∧
    (tagsistant_inner_create_and_tag_object example_cfg autoincrement_store 32
        (photo_qtree 0 "cat.jpg") 0 false []
        { objects := [], tagging := [], archive := [], queries := 0 }).dbi.tagging = [⟨1, 1⟩] :=
  ⟨(create_fails_on_inode_zero example_cfg zero_store 32 (photo_qtree 0 "cat.jpg") 0 false []
      { objects := [], tagging := [], archive := [], queries := 0 }).1 (by decide),
   ((create_fails_on_inode_zero example_cfg autoincrement_store 32 (photo_qtree 0 "cat.jpg") 0
      false [] { objects := [], tagging := [], archive := [], queries := 0 }).2.2
      (by decide)).2 (by decide),
   by decide⟩

/-- C12. Create lookup versus force: with `force_create` set only the insert is
sent, the lookup being skipped, and one object row with the objectname and the
empty checksum is added; without it, over a store where no object row is held
under inode 0 (the code's value for "no inode"), when some object row has the
objectname no object row is added and the inode patched into the querytree and
bound to its tags is that of an existing row with the objectname; when no row
has the objectname, exactly one object row with the objectname and the empty
checksum is added. -/
theorem create_lookup_versus_force (cfg : Config) (store : StoreEnv) (int_bits : Nat)
    (qtree : tagsistant_querytree) (tagsistant_errno : Int) (tags : List TagRow)
    (dbi : Repository) :
    ((create_or_find_object store qtree true dbi).2.queries = dbi.queries + 1 ∧
      (tagsistant_inner_create_and_tag_object cfg store int_bits qtree tagsistant_errno true
          tags dbi).dbi.objects
        = dbi.objects ++ [⟨store.next_inode dbi.objects, qtree.object_path.getD "(null)", ""⟩]) ∧
    ((∃ o ∈ dbi.objects, o.objectname = qtree.object_path.getD "(null)") →
      (∀ o ∈ dbi.objects, o.inode ≠ 0) →
      (tagsistant_inner_create_and_tag_object cfg store int_bits qtree tagsistant_errno false
          tags dbi).dbi.objects = dbi.objects ∧
      ∃ o ∈ dbi.objects, o.objectname = qtree.object_path.getD "(null)" ∧
        (create_or_find_object store qtree false dbi).1 = o.inode ∧
        (tagsistant_inner_create_and_tag_object cfg store int_bits qtree tagsistant_errno false
            tags dbi).qtree.inode = o.inode ∧
        ∀ tag, tree_lists qtree.tree tag = true →
          tag_bound o.inode tag
            { tags := (tagsistant_inner_create_and_tag_object cfg store int_bits qtree
                tagsistant_errno false tags dbi).tags,
              dbi := (tagsistant_inner_create_and_tag_object cfg store int_bits qtree
                tagsistant_errno false tags dbi).dbi }) ∧
    ((∀ o ∈ dbi.objects, o.objectname ≠ qtree.object_path.getD "(null)") →
      (tagsistant_inner_create_and_tag_object cfg store int_bits qtree tagsistant_errno false
          tags dbi).dbi.objects
        = dbi.objects ++ [⟨store.next_inode dbi.objects, qtree.object_path.getD "(null)", ""⟩]) := by
  refine ⟨⟨?_, ?_⟩, ?_, ?_⟩
  · rw [create_or_find_forced]
  · rw [create_objects, create_or_find_forced]
  · rintro ⟨p, hp, hpn⟩ hzero
    have hpm : p ∈ dbi.objects.filter
        (fun r => r.objectname = qtree.object_path.getD "(null)") :=
      List.mem_filter.mpr ⟨hp, by simpa using hpn⟩
    obtain ⟨o, rest, hrows⟩ : ∃ o rest, dbi.objects.filter
        (fun r => r.objectname = qtree.object_path.getD "(null)") = o :: rest := by
      cases hf : dbi.objects.filter
          (fun r => r.objectname = qtree.object_path.getD "(null)") with
      | nil => rw [hf] at hpm; exact absurd hpm (List.not_mem_nil _)
      | cons o rest => exact ⟨o, rest, rfl⟩
    have hmem : o ∈ dbi.objects.filter
        (fun r => r.objectname = qtree.object_path.getD "(null)") := by
      rw [hrows]
      exact List.mem_cons_self _ _
    have hin := List.mem_filter.mp hmem
    have hne : o.inode ≠ 0 := hzero o hin.1
    have hstep := create_or_find_found store qtree dbi o rest hrows hne
    have hne' : (create_or_find_object store qtree false dbi).1 ≠ 0 := by
      rw [hstep]
      exact hne
    obtain ⟨-, -, h3, h4, -⟩ :=
      create_result_nonzero cfg store int_bits qtree tagsistant_errno false tags dbi hne'
    rw [hstep] at h3 h4
    refine ⟨?_, o, hin.1, by simpa using hin.2, ?_, h3, h4⟩
    · rw [create_objects, hstep]
    · rw [hstep]
  · intro h
    have hlook : tagsistant_return_integer 0
        (select_inode_by_objectname dbi (qtree.object_path.getD "(null)")) = 0 := by
      rw [lookup_value]
      have : dbi.objects.filter
          (fun r => r.objectname = qtree.object_path.getD "(null)") = [] := by
        rw [List.filter_eq_nil_iff]
        intro a ha
        simpa using h a ha
      rw [this]
    rw [create_objects, create_or_find_inserts store qtree dbi hlook]

/-- Witness of C12: the objectname `x` is held by the row of inode 7, so the
call without `force_create` adds no row and uses inode 7; the objectname `y` is
held by no row, so one row is added. -/
theorem create_lookup_versus_force_witness :
    ((tagsistant_inner_create_and_tag_object example_cfg autoincrement_store 32
        (photo_qtree 0 "x") 0 false []
        { objects := [⟨7, "x", ""⟩], tagging := [], archive := [], queries := 0 }).dbi.objects
        = [⟨7, "x", ""⟩]) ∧
    (tagsistant_inner_create_and_tag_object example_cfg autoincrement_store 32
        (photo_qtree 0 "x") 0 false []
        { objects := [⟨7, "x", ""⟩], tagging := [], archive := [], queries := 0 }).dbi.tagging
      = [⟨7, 1⟩] ∧
    (tagsistant_inner_create_and_tag_object example_cfg autoincrement_store 32
        (photo_qtree 0 "y") 0 false []
        { objects := [⟨7, "x", ""⟩], tagging := [], archive := [], queries := 0 }).dbi.objects
      = [⟨7, "x", ""⟩, ⟨8, "y", ""⟩] :=
  ⟨((create_lookup_versus_force example_cfg autoincrement_store 32 (photo_qtree 0 "x") 0 []
        { objects := [⟨7, "x", ""⟩], tagging := [], archive := [], queries := 0 }).2.1
        ⟨⟨7, "x", ""⟩, by decide, rfl⟩ (by decide)).1,
   by decide,
   (create_lookup_versus_force example_cfg autoincrement_store 32 (photo_qtree 0 "y") 0 []
      { objects := [⟨7, "x", ""⟩], tagging := [], archive := [], queries := 0 }).2.2
      (by decide)⟩

/-! ## Flush -/

theorem return_integer_const (i : Nat) :
    ∀ (rows : List Nat) (buffer : Nat), (∀ x ∈ rows, x = i) → rows ≠ [] →
      tagsistant_return_integer buffer rows = i := by
  intro rows
  induction rows with
  | nil => intro buffer _ h; exact absurd rfl h
  | cons x rest ih =>
    intro buffer hall _
    unfold tagsistant_return_integer
    rw [List.foldl_cons]
    by_cases hrest : rest = []
    · subst hrest
      exact hall x (List.mem_cons_self _ _)
    · exact ih x (fun y hy => hall y (List.mem_cons_of_mem _ hy)) hrest

theorem flush_modified (dbi : Repository) (inode : Nat) :
    tagsistant_return_integer 0 (select_inode_if_unhashed dbi inode) =
      if ∃ o ∈ dbi.objects, o.inode = inode ∧ o.checksum = "" then inode else 0 := by
  unfold select_inode_if_unhashed
  split
  · rename_i h
    obtain ⟨o, ho, hi, hc⟩ := h
    apply return_integer_const
    · intro x hx
      obtain ⟨p, hp, rfl⟩ := List.mem_map.mp hx
      have := (List.mem_filter.mp hp).2
      simp only [decide_eq_true_eq] at this
      exact this.1
    · intro hnil
      have hmem : o.inode ∈ (dbi.objects.filter
          (fun o => o.inode = inode ∧ o.checksum = "")).map (fun o => o.inode) :=
        List.mem_map.mpr ⟨o, List.mem_filter.mpr ⟨ho, by simp [hi, hc]⟩, rfl⟩
      rw [hnil] at hmem
      exact absurd hmem (List.not_mem_nil _)
  · rename_i h
    have : dbi.objects.filter (fun o => o.inode = inode ∧ o.checksum = "") = [] := by
      rw [List.filter_eq_nil_iff]
      intro a ha hcond
      simp only [decide_eq_true_eq] at hcond
      exact h ⟨a, ha, hcond⟩
    rw [this]
    rfl

theorem flush_cases (cfg : Config)
    (tagsistant_process : tagsistant_querytree → Repository → Repository)
    (qtree : tagsistant_querytree) (dbi : Repository) (hmal : qtree.malformed = false) :
    ((qtree.taggable = true ∧ qtree.inode ≠ 0 ∧
        ∃ o ∈ dbi.objects, o.inode = qtree.inode ∧ o.checksum = "") →
      tagsistant_flush cfg tagsistant_process qtree dbi =
        (0, tagsistant_querytree_deduplicate cfg qtree
          (tagsistant_process qtree (tagsistant_query dbi)))) ∧
    (¬ (qtree.taggable = true ∧ qtree.inode ≠ 0 ∧
        ∃ o ∈ dbi.objects, o.inode = qtree.inode ∧ o.checksum = "") →
      tagsistant_flush cfg tagsistant_process qtree dbi =
        (0, if qtree.taggable then tagsistant_query dbi else dbi) ∧
      (tagsistant_flush cfg tagsistant_process qtree dbi).1 = 0 ∧
      (tagsistant_flush cfg tagsistant_process qtree dbi).2.objects = dbi.objects ∧
      (tagsistant_flush cfg tagsistant_process qtree dbi).2.tagging = dbi.tagging ∧
      (tagsistant_flush cfg tagsistant_process qtree dbi).2.archive = dbi.archive) := by
  constructor
  · rintro ⟨ht, hi, hrow⟩
    unfold tagsistant_flush
    simp only [hmal, ht, Bool.false_eq_true, if_false, if_true, flush_modified, hrow]
    simp [hi, tagsistant_querytree_destroy]
  · intro hnot
    have hval : tagsistant_flush cfg tagsistant_process qtree dbi =
        (0, if qtree.taggable then tagsistant_query dbi else dbi) := by
      unfold tagsistant_flush
      cases ht : qtree.taggable
      · simp [hmal, tagsistant_querytree_destroy]
      · simp only [hmal, Bool.false_eq_true, if_false, if_true, flush_modified]
        by_cases hrow : ∃ o ∈ dbi.objects, o.inode = qtree.inode ∧ o.checksum = ""
        · have hi : qtree.inode = 0 := by
            by_contra hne
            exact hnot ⟨ht, hne, hrow⟩
          simp [hrow, hi, tagsistant_querytree_destroy]
        · simp [hrow, tagsistant_querytree_destroy]
    rw [hval]
    refine ⟨rfl, rfl, ?_, ?_, ?_⟩ <;> cases qtree.taggable <;> simp [tagsistant_query]

/-- C13. Flush gating: over a store where no object row is held under inode 0
(the code's value for "no inode"), `tagsistant_flush` runs the autotagging hook
and then the deduplication of the object, and returns 0, exactly when the
querytree is not malformed, is taggable and an object row of its inode has an
empty checksum; in every other case objects, tagging and archive are as before
and the result does not depend on the hook or the settings, and for a querytree
that is not malformed the return value is then 0. -/
theorem flush_gating (cfg : Config)
    (tagsistant_process : tagsistant_querytree → Repository → Repository)
    (qtree : tagsistant_querytree) (dbi : Repository)
    (hzero : ∀ o ∈ dbi.objects, o.inode ≠ 0) :
    ((qtree.malformed = false ∧ qtree.taggable = true ∧
        ∃ o ∈ dbi.objects, o.inode = qtree.inode ∧ o.checksum = "") →
      tagsistant_flush cfg tagsistant_process qtree dbi =
        (0, tagsistant_querytree_deduplicate cfg qtree
          (tagsistant_process qtree (tagsistant_query dbi)))) ∧
    (¬ (qtree.malformed = false ∧ qtree.taggable = true ∧
        ∃ o ∈ dbi.objects, o.inode = qtree.inode ∧ o.checksum = "") →
      tagsistant_flush cfg tagsistant_process qtree dbi =
        (if qtree.malformed then -ENOENT else 0,
         if qtree.malformed then dbi else if qtree.taggable then tagsistant_query dbi else dbi) ∧
      (qtree.malformed = false → (tagsistant_flush cfg tagsistant_process qtree dbi).1 = 0) ∧
      (tagsistant_flush cfg tagsistant_process qtree dbi).2.objects = dbi.objects ∧
      (tagsistant_flush cfg tagsistant_process qtree dbi).2.tagging = dbi.tagging ∧
      (tagsistant_flush cfg tagsistant_process qtree dbi).2.archive = dbi.archive) := by
  constructor
  · rintro ⟨hmal, ht, o, ho, hoi, hoc⟩
    have hi : qtree.inode ≠ 0 := hoi ▸ hzero o ho
    exact (flush_cases cfg tagsistant_process qtree dbi hmal).1 ⟨ht, hi, o, ho, hoi, hoc⟩
  · intro hnot
    cases hmal : qtree.malformed
    · have hnot' : ¬ (qtree.taggable = true ∧ qtree.inode ≠ 0 ∧
          ∃ o ∈ dbi.objects, o.inode = qtree.inode ∧ o.checksum = "") :=
        fun h => hnot ⟨hmal, h.1, h.2.2⟩
      obtain ⟨h1, h2, h3, h4, h5⟩ :=
        (flush_cases cfg tagsistant_process qtree dbi hmal).2 hnot'
      refine ⟨?_, fun _ => h2, h3, h4, h5⟩
      rw [h1]
      simp
    · have hval : tagsistant_flush cfg tagsistant_process qtree dbi = (-ENOENT, dbi) := by
        unfold tagsistant_flush
        simp [hmal, tagsistant_querytree_destroy]
      rw [hval]
      refine ⟨by simp, fun h => absurd h (by simp), rfl, rfl, rfl⟩

/-- Witness of C13: the flush of the unhashed object 3 runs the hook and the
deduplication; the flush of the hashed object 5 changes nothing. -/
theorem flush_gating_witness :
    tagsistant_flush example_cfg
        (fun _ dbi => { dbi with tagging := dbi.tagging ++ [⟨3, 9⟩] }) (photo_qtree 3 "x")
        { objects := [⟨3, "x", ""⟩, ⟨5, "y", "sum1"⟩], tagging := [],
          archive := [⟨"/repo/archive/3___x", FileKind.regular, some [72]⟩], queries := 0 }
      = (0, { objects := [⟨3, "x", "sum72"⟩, ⟨5, "y", "sum1"⟩], tagging := [⟨3, 9⟩],
              archive := [⟨"/repo/archive/3___x", FileKind.regular, some [72]⟩],
              queries := 4 }) ∧
    (tagsistant_flush example_cfg
        (fun _ dbi => { dbi with tagging := dbi.tagging ++ [⟨5, 9⟩] }) (photo_qtree 5 "y")
        { objects := [⟨3, "x", ""⟩, ⟨5, "y", "sum1"⟩], tagging := [],
          archive := [⟨"/repo/archive/3___x", FileKind.regular, some [72]⟩], queries := 0 }).2.tagging
      = [] :=
  ⟨((flush_gating example_cfg (fun _ dbi => { dbi with tagging := dbi.tagging ++ [⟨3, 9⟩] })
      (photo_qtree 3 "x")
      { objects := [⟨3, "x", ""⟩, ⟨5, "y", "sum1"⟩], tagging := [],
        archive := [⟨"/repo/archive/3___x", FileKind.regular, some [72]⟩], queries := 0 }
      (by decide)).1
      ⟨rfl, rfl, ⟨3, "x", ""⟩, by decide, rfl, rfl⟩).trans (by decide),
   ((flush_gating example_cfg (fun _ dbi => { dbi with tagging := dbi.tagging ++ [⟨5, 9⟩] })
      (photo_qtree 5 "y")
      { objects := [⟨3, "x", ""⟩, ⟨5, "y", "sum1"⟩], tagging := [],
        archive := [⟨"/repo/archive/3___x", FileKind.regular, some [72]⟩], queries := 0 }
      (by decide)).2
      (by decide)).2.2.2.1⟩

end Tagsistant
